import Mathlib

/-!
# Web VNC gateway (`main.go`): RFB handshake, server message reader, client message router

A shallow embedding of `performVNCHandshake` and of the two relay loops of
`handleVNCProxy`.  Bytes are natural numbers; the display-server connection is a
record holding the bytes the server will still deliver (followed by end of stream),
the bytes written to it so far, and the number of `Write` calls that still succeed.
Go strings built by `string(bytes)` are kept as their byte lists; a string sent to the
front end goes through the JSON encoder, which replaces bytes that are not valid UTF-8.
-/

namespace WebVNC

/-! ## Protocol constants -/

/-- Bytes of an ASCII Go string literal. -/
def ascii (s : String) : List Nat :=
  s.toList.map Char.toNat

/-- The constant `VNCProtocolVersion38`, as bytes. -/
def VNCProtocolVersion38 : List Nat := ascii "RFB 003.008\n"

/-- The literal `"RFB 003.003\n"` compared against in step 5, as bytes. -/
def versionLine33 : List Nat := ascii "RFB 003.003\n"

def SecurityTypeNone : Nat := 1
def SecurityTypeVNCAuth : Nat := 2

def MessageTypeFramebufferUpdate : Nat := 0
def MessageTypeBell : Nat := 2
def MessageTypeServerCutText : Nat := 3

def ClientMessageTypeSetPixelFormat : Nat := 0
def ClientMessageTypeSetEncodings : Nat := 2
def ClientMessageTypeFramebufferUpdateRequest : Nat := 3
def ClientMessageTypeKeyEvent : Nat := 4
def ClientMessageTypePointerEvent : Nat := 5

def EncodingRaw : Int := 0

/-! ## Byte order helpers (`encoding/binary`, `binary.BigEndian`) -/

/-- The call `binary.BigEndian.Uint16(b)` on the first two bytes of `b`. -/
def beUint16 (b : List Nat) : Nat :=
  b.getD 0 0 * 256 + b.getD 1 0

/-- The call `binary.BigEndian.Uint32(b)` on the first four bytes of `b`. -/
def beUint32 (b : List Nat) : Nat :=
  b.getD 0 0 * 16777216 + b.getD 1 0 * 65536 + b.getD 2 0 * 256 + b.getD 3 0

/-- The call `binary.BigEndian.PutUint16(b, v)` for a `uint16` value: the two bytes written. -/
def putUint16 (v : Nat) : List Nat :=
  [v / 256 % 256, v % 256]

/-- The call `binary.BigEndian.PutUint32(b, v)` for a `uint32` value: the four bytes written. -/
def putUint32 (v : Nat) : List Nat :=
  [v / 16777216 % 256, v / 65536 % 256, v / 256 % 256, v % 256]

/-- The conversion `int32(u)` of a `uint32` value (two's complement reinterpretation). -/
def toInt32 (u : Nat) : Int :=
  if u % 4294967296 < 2147483648 then (u % 4294967296 : Nat) else ((u % 4294967296 : Nat) : Int) - 4294967296

/-- Bytes of a Go string literal (UTF-8). -/
def utf8 (s : String) : List Nat :=
  s.toUTF8.toList.map UInt8.toNat

/-! ## Data model -/

/-- The struct `PixelFormat` (the three padding bytes carry no field). -/
structure PixelFormat where
  BPP : Nat
  Depth : Nat
  BigEndian : Nat
  TrueColor : Nat
  RedMax : Nat
  GreenMax : Nat
  BlueMax : Nat
  RedShift : Nat
  GreenShift : Nat
  BlueShift : Nat
  deriving DecidableEq, Repr

/-- The struct `ServerInitMessage`; `Name` is the byte content of the Go string. -/
structure ServerInitMessage where
  FramebufferWidth : Nat
  FramebufferHeight : Nat
  PixelFormat : PixelFormat
  NameLength : Nat
  Name : List Nat
  deriving DecidableEq, Repr

/-- Why a read or a write on the display-server connection failed. -/
inductive IOCause where
  | eof
  | unexpectedEOF
  | writeFailed
  deriving DecidableEq, Repr

/-- The error values `performVNCHandshake` can return, one constructor per `return` site. -/
inductive HandshakeError where
  | serverVersionRead (cause : IOCause)
  | clientVersionWrite (cause : IOCause)
  | numSecurityTypesRead (cause : IOCause)
  | negotiationFailed (reason : List Nat)
  | securityTypesRead (cause : IOCause)
  | noSupportedSecurityType
  | chosenTypeWrite (cause : IOCause)
  | vncAuthUnsupported
  | securityResultRead (cause : IOCause)
  | securityResultFailed (code : Nat) (reason : List Nat)
  | clientInitWrite (cause : IOCause)
  | serverInitRead (cause : IOCause)
  | initSend
  | setEncodingsWrite (cause : IOCause)
  deriving DecidableEq, Repr

/-- The text of `err.Error()`; `causeText` gives the text of the wrapped transport
error, `wsText` the text of a failed `WriteJSON`. -/
def HandshakeError.message (causeText : IOCause → List Nat) (wsText : List Nat) :
    HandshakeError → List Nat
  | .serverVersionRead c => utf8 "VNC 서버 버전 읽기 실패: " ++ causeText c
  | .clientVersionWrite c => utf8 "클라이언트 버전 전송 실패: " ++ causeText c
  | .numSecurityTypesRead c => utf8 "보안 타입 개수 읽기 실패: " ++ causeText c
  | .negotiationFailed reason => utf8 "VNC 서버 보안 협상 실패: " ++ reason
  | .securityTypesRead c => utf8 "보안 타입 목록 읽기 실패: " ++ causeText c
  | .noSupportedSecurityType => utf8 "지원하는 보안 타입 없음 (None 또는 VNCAuth)."
  | .chosenTypeWrite c => utf8 "선택된 보안 타입 전송 실패: " ++ causeText c
  | .vncAuthUnsupported => utf8 "VNCAuth는 이 PoC에서 지원되지 않습니다."
  | .securityResultRead c => utf8 "보안 결과 읽기 실패: " ++ causeText c
  | .securityResultFailed code reason =>
      utf8 "VNC 보안 결과 실패: " ++ utf8 (toString code) ++ utf8 ", 이유: " ++ reason
  | .clientInitWrite c => utf8 "클라이언트 초기화 메시지 전송 실패: " ++ causeText c
  | .serverInitRead c => causeText c
  | .initSend => utf8 "초기 프레임 정보 전송 실패: " ++ wsText
  | .setEncodingsWrite c => utf8 "SetEncodings 전송 실패: " ++ causeText c

/-- Outward structured messages (`wsConn.WriteJSON`).  A `framebufferUpdate` always
carries `"encoding": "raw"`; `error` carries the handshake error whose text follows
`"VNC Handshake failed: "`.  String fields are byte lists: the bytes of the Go string in
the value handed to `WriteJSON`, the UTF-8 bytes of the decoded JSON string in a
message the front end has received. -/
inductive OutMsg where
  | init (width height : Nat) (pixelFormat : PixelFormat) (name : List Nat)
  | framebufferUpdate (x y width height : Nat) (pixelData : List Nat)
  | bell
  | serverCutText (text : List Nat)
  | error (cause : HandshakeError)
  deriving DecidableEq, Repr

/-! ## JSON strings (`encoding/json`, `unicode/utf8`) -/

/-- The table `first` of `unicode/utf8` for a lead byte of a multi-byte sequence: the
length of the sequence and the accepted range of its second byte; length 0 for a byte
that cannot start one. -/
def utf8First (s0 : Nat) : Nat × Nat × Nat :=
  if 0xC2 ≤ s0 ∧ s0 ≤ 0xDF then (2, 0x80, 0xBF)
  else if s0 = 0xE0 then (3, 0xA0, 0xBF)
  else if (0xE1 ≤ s0 ∧ s0 ≤ 0xEC) ∨ s0 = 0xEE ∨ s0 = 0xEF then (3, 0x80, 0xBF)
  else if s0 = 0xED then (3, 0x80, 0x9F)
  else if s0 = 0xF0 then (4, 0x90, 0xBF)
  else if 0xF1 ≤ s0 ∧ s0 ≤ 0xF3 then (4, 0x80, 0xBF)
  else if s0 = 0xF4 then (4, 0x80, 0x8F)
  else (0, 0, 0)

/-- The size returned by `utf8.DecodeRuneInString(s)` when it decodes a rune, and 0 when
it returns `(RuneError, 1)` for an invalid or cut-off encoding (or `s` is empty). -/
def utf8SeqLen (s : List Nat) : Nat :=
  match s with
  | [] => 0
  | s0 :: t =>
    if s0 < 0x80 then 1
    else
      let sz := (utf8First s0).1
      let lo := (utf8First s0).2.1
      let hi := (utf8First s0).2.2
      if sz = 0 then 0
      else if s.length < sz then 0
      else if t.getD 0 0 < lo ∨ hi < t.getD 0 0 then 0
      else if sz ≤ 2 then 2
      else if t.getD 1 0 < 0x80 ∨ 0xBF < t.getD 1 0 then 0
      else if sz ≤ 3 then 3
      else if t.getD 2 0 < 0x80 ∨ 0xBF < t.getD 2 0 then 0
      else 4

/-- The loop of the JSON string encoder over the bytes of a Go string, at most `fuel`
steps: a decodable sequence is kept, a byte that does not decode is replaced by U+FFFD
(bytes EF BF BD).  Escapes written by the encoder are undone by the decoder and do not
show here. -/
def jsonStringFuel : Nat → List Nat → List Nat
  | 0, _ => []
  | _ + 1, [] => []
  | fuel + 1, s0 :: t =>
    if utf8SeqLen (s0 :: t) = 0 then
      [0xEF, 0xBF, 0xBD] ++ jsonStringFuel fuel t
    else
      (s0 :: t).take (utf8SeqLen (s0 :: t))
        ++ jsonStringFuel fuel ((s0 :: t).drop (utf8SeqLen (s0 :: t)))

/-- A Go string as the front end reads it back from the JSON text: coerced to valid
UTF-8.  Each step consumes at least one byte, so `s.length` steps are enough. -/
def jsonString (s : List Nat) : List Nat :=
  jsonStringFuel s.length s

/-- A handshake error as its text reaches the front end: the reason bytes go through the
JSON string encoder with the rest of the text. -/
def HandshakeError.delivered : HandshakeError → HandshakeError
  | .negotiationFailed reason => .negotiationFailed (jsonString reason)
  | .securityResultFailed code reason => .securityResultFailed code (jsonString reason)
  | e => e

/-- The message the front end reads back for a value handed to `WriteJSON`. -/
def OutMsg.delivered : OutMsg → OutMsg
  | .init width height pixelFormat name => .init width height pixelFormat (jsonString name)
  | .serverCutText text => .serverCutText (jsonString text)
  | .error cause => .error cause.delivered
  | m => m

/-! ## Transport model -/

/-- The TCP connection to the display server. -/
structure VncConn where
  /-- Bytes the server still delivers, after which the stream ends. -/
  input : List Nat
  /-- Bytes written to the server so far, in order. -/
  output : List Nat
  /-- Number of further `Write` calls that succeed. -/
  writesLeft : Nat
  deriving DecidableEq, Repr

/-- The outward half of the structured-message channel. -/
structure WsConn where
  /-- Messages delivered to the front end so far, in order. -/
  sent : List OutMsg
  /-- Number of further `WriteJSON` calls that succeed. -/
  sendsLeft : Nat
  deriving DecidableEq, Repr

/-- Result of filling a buffer of a given length from the stream. -/
structure ReadResult where
  /-- The buffer after the call: what was read, the rest left at zero. -/
  buf : List Nat
  err : Option IOCause
  conn : VncConn
  deriving DecidableEq, Repr

/-- The call `io.ReadFull(vncConn, buf)` with `len(buf) = n` and `buf` zeroed before
the call.  A buffer of length 0 is filled without touching the stream. -/
def readFull (c : VncConn) (n : Nat) : ReadResult :=
  if n ≤ c.input.length then
    { buf := c.input.take n, err := none, conn := { c with input := c.input.drop n } }
  else
    { buf := c.input ++ List.replicate (n - c.input.length) 0,
      err := some (if c.input.isEmpty then IOCause.eof else IOCause.unexpectedEOF),
      conn := { c with input := [] } }

/-- The call `vncConn.Write(p)`: all of `p` is accepted, or the call fails. -/
def VncConn.write (c : VncConn) (p : List Nat) : Option IOCause × VncConn :=
  match c.writesLeft with
  | 0 => (some IOCause.writeFailed, c)
  | k + 1 => (none, { c with output := c.output ++ p, writesLeft := k })

/-- The call `wsConn.WriteJSON(m)`; `true` stands for a nil error.  The front end
receives the message with its strings as the JSON encoding carries them. -/
def WsConn.writeJSON (w : WsConn) (m : OutMsg) : Bool × WsConn :=
  match w.sendsLeft with
  | 0 => (false, w)
  | k + 1 => (true, { sent := w.sent ++ [m.delivered], sendsLeft := k })

/-! ## `performVNCHandshake` -/

/-- What `performVNCHandshake` returns (`err = none` is the nil error) together with
the state of both transports when it returns. -/
structure HandshakeResult where
  err : Option HandshakeError
  vnc : VncConn
  ws : WsConn
  deriving DecidableEq, Repr

/-- One `for _, st := range securityTypes` loop of step 4: the value of
`chosenSecurityType` after scanning for `wanted`, starting from `chosen`. -/
def scanSecurityTypes (wanted : Nat) : List Nat → Nat → Nat
  | [], chosen => chosen
  | st :: rest, chosen => if st = wanted then wanted else scanSecurityTypes wanted rest chosen

/-- Step 4: the value of `chosenSecurityType` after both loops (0 when neither
None nor VNCAuth is offered). -/
def chooseSecurityType (securityTypes : List Nat) : Nat :=
  let chosen := scanSecurityTypes SecurityTypeNone securityTypes 0
  if chosen = 0 then scanSecurityTypes SecurityTypeVNCAuth securityTypes chosen else chosen

/-- The value `binary.Read` stores into a `PixelFormat` from its 16 bytes. -/
def decodePixelFormat (b : List Nat) : PixelFormat :=
  { BPP := b.getD 0 0, Depth := b.getD 1 0, BigEndian := b.getD 2 0, TrueColor := b.getD 3 0,
    RedMax := beUint16 (b.drop 4), GreenMax := beUint16 (b.drop 6), BlueMax := beUint16 (b.drop 8),
    RedShift := b.getD 10 0, GreenShift := b.getD 11 0, BlueShift := b.getD 12 0 }

/-- The 8 bytes of `setEncodingsMsg`. -/
def setEncodingsMsg : List Nat :=
  [ClientMessageTypeSetEncodings, 0] ++ putUint16 1 ++ putUint32 EncodingRaw.toNat

/-- Steps 6 and 7 and the rest of `performVNCHandshake`: client-init byte, ServerInit,
the outward `init` message, SetEncodings. -/
def handshakeInit (vnc : VncConn) (ws : WsConn) : HandshakeResult :=
  let sharedFlag := 0
  match vnc.write [sharedFlag] with
  | (some e, c) => ⟨some (.clientInitWrite e), c, ws⟩
  | (none, c) =>
    let rW := readFull c 2
    match rW.err with
    | some e => ⟨some (.serverInitRead e), rW.conn, ws⟩
    | none =>
      let rH := readFull rW.conn 2
      match rH.err with
      | some e => ⟨some (.serverInitRead e), rH.conn, ws⟩
      | none =>
        let rP := readFull rH.conn 16
        match rP.err with
        | some e => ⟨some (.serverInitRead e), rP.conn, ws⟩
        | none =>
          let rL := readFull rP.conn 4
          match rL.err with
          | some e => ⟨some (.serverInitRead e), rL.conn, ws⟩
          | none =>
            let rN := readFull rL.conn (beUint32 rL.buf)
            match rN.err with
            | some e => ⟨some (.serverInitRead e), rN.conn, ws⟩
            | none =>
              let serverInit : ServerInitMessage :=
                { FramebufferWidth := beUint16 rW.buf, FramebufferHeight := beUint16 rH.buf,
                  PixelFormat := decodePixelFormat rP.buf, NameLength := beUint32 rL.buf,
                  Name := rN.buf }
              match ws.writeJSON (.init serverInit.FramebufferWidth serverInit.FramebufferHeight
                  serverInit.PixelFormat serverInit.Name) with
              | (false, w) => ⟨some .initSend, rN.conn, w⟩
              | (true, w) =>
                match rN.conn.write setEncodingsMsg with
                | (some e, c2) => ⟨some (.setEncodingsWrite e), c2, w⟩
                | (none, c2) => ⟨none, c2, w⟩

/-- Step 5 of `performVNCHandshake` and what follows it.  The errors of the two reads
of the reason are dropped by the source: a failed length read leaves `reasonLen` at 0. -/
def handshakeSecurityResult (vncServerVersion : List Nat) (vnc : VncConn) (ws : WsConn) :
    HandshakeResult :=
  if vncServerVersion ≠ versionLine33 then
    let rS := readFull vnc 4
    match rS.err with
    | some e => ⟨some (.securityResultRead e), rS.conn, ws⟩
    | none =>
      let securityResult := beUint32 rS.buf
      if securityResult ≠ 0 then
        let rL := readFull rS.conn 4
        let reasonLen := match rL.err with
          | none => beUint32 rL.buf
          | some _ => 0
        let rR := readFull rL.conn reasonLen
        ⟨some (.securityResultFailed securityResult rR.buf), rR.conn, ws⟩
      else
        handshakeInit rS.conn ws
  else
    handshakeInit vnc ws

/-- The function `performVNCHandshake(vncConn, wsConn)`. -/
def performVNCHandshake (vnc : VncConn) (ws : WsConn) : HandshakeResult :=
  -- 1. server version line
  let rV := readFull vnc 12
  match rV.err with
  | some e => ⟨some (.serverVersionRead e), rV.conn, ws⟩
  | none =>
    let vncServerVersion := rV.buf
    -- 2. client version line
    match rV.conn.write VNCProtocolVersion38 with
    | (some e, c) => ⟨some (.clientVersionWrite e), c, ws⟩
    | (none, c) =>
      -- 3. security types
      let rC := readFull c 1
      match rC.err with
      | some e => ⟨some (.numSecurityTypesRead e), rC.conn, ws⟩
      | none =>
        let numSecurityTypes := rC.buf.getD 0 0
        if numSecurityTypes = 0 then
          let rL := readFull rC.conn 4
          let reasonLen := match rL.err with
            | none => beUint32 rL.buf
            | some _ => 0
          let rR := readFull rL.conn reasonLen
          ⟨some (.negotiationFailed rR.buf), rR.conn, ws⟩
        else
          let rT := readFull rC.conn numSecurityTypes
          match rT.err with
          | some e => ⟨some (.securityTypesRead e), rT.conn, ws⟩
          | none =>
            let securityTypes := rT.buf
            -- 4. choice
            let chosenSecurityType := chooseSecurityType securityTypes
            if chosenSecurityType = 0 then
              ⟨some .noSupportedSecurityType, rT.conn, ws⟩
            else
              match rT.conn.write [chosenSecurityType] with
              | (some e, c2) => ⟨some (.chosenTypeWrite e), c2, ws⟩
              | (none, c2) =>
                if chosenSecurityType = SecurityTypeVNCAuth then
                  ⟨some .vncAuthUnsupported, c2, ws⟩
                else
                  -- 5. security result, 6. client init, 7. server init
                  handshakeSecurityResult vncServerVersion c2 ws

/-- How the sequential part of `handleVNCProxy` ends once the display server is
connected: the handshake failed (an `error` message is sent and the handler returns),
or both relay goroutines are started on the given transport states. -/
inductive SessionOutcome where
  | handshakeFailed (vnc : VncConn) (ws : WsConn)
  | streaming (vnc : VncConn) (ws : WsConn)
  deriving DecidableEq, Repr

/-- The part of `handleVNCProxy` between the successful `net.Dial` and the start of
the two goroutines. -/
def handleVNCProxy (vnc : VncConn) (ws : WsConn) : SessionOutcome :=
  let h := performVNCHandshake vnc ws
  match h.err with
  | some e => .handshakeFailed h.vnc (h.ws.writeJSON (.error e)).2
  | none => .streaming h.vnc h.ws

/-! ## Server message reader (first goroutine of `handleVNCProxy`) -/

/-- The loop `for i := 0; i < int(numRects); i++` with the given number of iterations
left.  The Boolean is `true` when the goroutine executed `return` inside the loop.
The product `int(width) * int(height) * int(bytesPerPixel)` is below `2^63`. -/
def rectLoop : Nat → VncConn → WsConn → Bool × VncConn × WsConn
  | 0, vnc, ws => (false, vnc, ws)
  | k + 1, vnc, ws =>
    let rH := readFull vnc 12
    match rH.err with
    | some _ => (true, rH.conn, ws)
    | none =>
      let x := beUint16 rH.buf
      let y := beUint16 (rH.buf.drop 2)
      let width := beUint16 (rH.buf.drop 4)
      let height := beUint16 (rH.buf.drop 6)
      let encodingType := toInt32 (beUint32 (rH.buf.drop 8))
      if encodingType = EncodingRaw then
        let bytesPerPixel := 4
        let pixelDataSize := width * height * bytesPerPixel
        let rP := readFull rH.conn pixelDataSize
        match rP.err with
        | some _ => (true, rP.conn, ws)
        | none =>
          match ws.writeJSON (.framebufferUpdate x y width height rP.buf) with
          | (false, w) => (true, rP.conn, w)
          | (true, w) => rectLoop k rP.conn w
      else
        -- logged as skipped; nothing is read for this rectangle
        rectLoop k rH.conn ws

/-- State of the reader goroutine when it stops. -/
structure ReaderResult where
  vnc : VncConn
  ws : WsConn
  /-- The goroutine returned (its deferred `wsConn.Close()` ran); `false` only when
  the iteration bound was used up. -/
  exited : Bool
  deriving DecidableEq, Repr

/-- How one pass through the body of the reader's `for { ... }` ends. -/
inductive ReaderStep where
  /-- A `return` was executed. -/
  | exit (vnc : VncConn) (ws : WsConn)
  /-- The end of the body was reached; the loop goes round again. -/
  | next (vnc : VncConn) (ws : WsConn)
  deriving DecidableEq, Repr

/-- One pass through the body of the reader's `for { ... }`: read the message type
byte and dispatch on it. -/
def readerIteration (vnc : VncConn) (ws : WsConn) : ReaderStep :=
  let rT := readFull vnc 1
  match rT.err with
  | some _ => .exit rT.conn ws
  | none =>
    let msgType := rT.buf.getD 0 0
    if msgType = MessageTypeFramebufferUpdate then
      let rH := readFull rT.conn 3
      match rH.err with
      | some _ => .exit rH.conn ws
      | none =>
        let numRects := beUint16 (rH.buf.drop 1)
        match rectLoop numRects rH.conn ws with
        | (true, c, w) => .exit c w
        | (false, c, w) => .next c w
    else if msgType = MessageTypeBell then
      .next rT.conn (ws.writeJSON .bell).2
    else if msgType = MessageTypeServerCutText then
      let rP := readFull rT.conn 3
      match rP.err with
      | some _ => .exit rP.conn ws
      | none =>
        let rL := readFull rP.conn 4
        match rL.err with
        | some _ => .exit rL.conn ws
        | none =>
          let length := beUint32 rL.buf
          let rX := readFull rL.conn length
          match rX.err with
          | some _ => .exit rX.conn ws
          | none => .next rX.conn (ws.writeJSON (.serverCutText rX.buf)).2
    else
      .exit rT.conn ws

/-- The reader's `for { ... }` loop, at most `fuel` iterations. -/
def readerLoopFuel : Nat → VncConn → WsConn → ReaderResult
  | 0, vnc, ws => ⟨vnc, ws, false⟩
  | fuel + 1, vnc, ws =>
    match readerIteration vnc ws with
    | .exit c w => ⟨c, w, true⟩
    | .next c w => readerLoopFuel fuel c w

/-- The reader goroutine: every iteration that does not return consumes the message
type byte, so one more iteration than there are bytes left is enough. -/
def readerLoop (vnc : VncConn) (ws : WsConn) : ReaderResult :=
  readerLoopFuel (vnc.input.length + 1) vnc ws

/-! ## Client message router (second goroutine of `handleVNCProxy`) -/

/-- A value stored in `map[string]interface{}` by `json.Unmarshal`.  A JSON number
becomes a `float64`, kept here as the rational it holds; arrays and objects are never
inspected by the router. -/
inductive JVal where
  | null
  | bool (b : Bool)
  | num (f : Rat)
  | str (s : String)
  | array
  | object
  deriving DecidableEq, Repr

/-- The map `clientMsg`; indexing a missing key gives the nil interface value. -/
abbrev ClientMsg := String → JVal

/-- One result of `wsConn.ReadMessage()` without error: a text frame with the outcome
of `json.Unmarshal(p, &clientMsg)` (`none` when it returns an error), or a binary frame. -/
inductive WsFrame where
  | text (unmarshalled : Option ClientMsg)
  | binary

/-- The type assertion `v.(float64)`; `none` is the run-time panic. -/
def assertFloat64 : JVal → Option Rat
  | .num f => some f
  | _ => none

/-- The type assertion `v.(bool)`; `none` is the run-time panic. -/
def assertBool : JVal → Option Bool
  | .bool b => some b
  | _ => none

/-- The conversions `uint8(f)`, `uint16(f)`, `uint32(f)` of a `float64`: the fraction is
discarded.  For a value outside the target range Go leaves the result to the
implementation; this is the amd64 build, where the conversion goes through a signed
32-bit integer for the 8- and 16-bit targets and through a signed 64-bit integer for the
32-bit target, the low `bits` bits of which are kept, and a value outside that signed
range gives 0. -/
def floatToUint (bits : Nat) (f : Rat) : Nat :=
  let t := f.num.tdiv f.den
  let wide : Int := if bits ≤ 16 then 2 ^ 31 else 2 ^ 63
  if -wide ≤ t ∧ t < wide then (t % (2 ^ bits : Int)).toNat else 0

/-- The body of `if err := json.Unmarshal(p, &clientMsg); err == nil { ... }`;
`none` is a run-time panic of the goroutine (a failed type assertion). -/
def handleClientMsg (clientMsg : ClientMsg) (vnc : VncConn) : Option VncConn :=
  if clientMsg "type" = .str "framebuffer_request" then do
    let x := floatToUint 16 (← assertFloat64 (clientMsg "x"))
    let y := floatToUint 16 (← assertFloat64 (clientMsg "y"))
    let width := floatToUint 16 (← assertFloat64 (clientMsg "width"))
    let height := floatToUint 16 (← assertFloat64 (clientMsg "height"))
    let incremental ← assertBool (clientMsg "incremental")
    let fbReq := [ClientMessageTypeFramebufferUpdateRequest, if incremental then 1 else 0]
      ++ putUint16 x ++ putUint16 y ++ putUint16 width ++ putUint16 height
    pure (vnc.write fbReq).2
  else if clientMsg "type" = .str "key_event" then do
    let downFlag ← assertBool (clientMsg "down")
    let key := floatToUint 32 (← assertFloat64 (clientMsg "keysym"))
    let keyEvent := [ClientMessageTypeKeyEvent, if downFlag then 1 else 0]
      ++ putUint16 0 ++ putUint32 key
    pure (vnc.write keyEvent).2
  else if clientMsg "type" = .str "pointer_event" then do
    let buttonMask := floatToUint 8 (← assertFloat64 (clientMsg "buttonMask"))
    let x := floatToUint 16 (← assertFloat64 (clientMsg "x"))
    let y := floatToUint 16 (← assertFloat64 (clientMsg "y"))
    let pointerEvent := [ClientMessageTypePointerEvent, buttonMask] ++ putUint16 x ++ putUint16 y
    pure (vnc.write pointerEvent).2
  else
    pure vnc

/-- State of the router goroutine when it stops. -/
structure RouterResult where
  vnc : VncConn
  /-- The goroutine ended in a run-time panic instead of returning. -/
  panicked : Bool
  /-- Number of frames of the inbound sequence that were never read. -/
  unread : Nat
  deriving DecidableEq, Repr

/-- The router's `for { ... }` loop over the frames the front end sends; after the
last one `ReadMessage` fails and the goroutine returns. -/
def routerLoop : List WsFrame → VncConn → RouterResult
  | [], vnc => ⟨vnc, false, 0⟩
  | .binary :: rest, vnc => routerLoop rest vnc
  | .text none :: rest, vnc => routerLoop rest vnc
  | .text (some clientMsg) :: rest, vnc =>
    match handleClientMsg clientMsg vnc with
    | none => ⟨vnc, true, rest.length⟩
    | some vnc2 => routerLoop rest vnc2

/-! ## Input events and the wire layout read back -/

/-- A structured input event as the front end sends it; numeric fields are JSON numbers. -/
inductive InputEvent where
  | framebufferRequest (x y width height : Rat) (incremental : Bool)
  | keyEvent (down : Bool) (keysym : Rat)
  | pointerEvent (buttonMask x y : Rat)
  deriving DecidableEq, Repr

/-- The map `json.Unmarshal` yields for the JSON object of an input event. -/
def InputEvent.toClientMsg : InputEvent → ClientMsg
  | .framebufferRequest x y width height incremental => fun k =>
    if k = "type" then .str "framebuffer_request"
    else if k = "x" then .num x
    else if k = "y" then .num y
    else if k = "width" then .num width
    else if k = "height" then .num height
    else if k = "incremental" then .bool incremental
    else .null
  | .keyEvent down keysym => fun k =>
    if k = "type" then .str "key_event"
    else if k = "down" then .bool down
    else if k = "keysym" then .num keysym
    else .null
  | .pointerEvent buttonMask x y => fun k =>
    if k = "type" then .str "pointer_event"
    else if k = "buttonMask" then .num buttonMask
    else if k = "x" then .num x
    else if k = "y" then .num y
    else .null

/-- The bytes the router writes to the display server for one input event (`none` when
the goroutine panics). -/
def routerBytes (ev : InputEvent) : Option (List Nat) :=
  (handleClientMsg ev.toClientMsg ⟨[], [], 1⟩).map VncConn.output

/-- Specification side: a client wire message read back by the layouts of the interface
table (FramebufferUpdateRequest, KeyEvent, PointerEvent; big-endian integers, a flag byte
is true when it is not 0). -/
def decodeClientWire (b : List Nat) : Option InputEvent :=
  match b with
  | [t, incremental, x1, x0, y1, y0, w1, w0, h1, h0] =>
    if t = 3 then
      some (.framebufferRequest (beUint16 [x1, x0] : Nat) (beUint16 [y1, y0] : Nat)
        (beUint16 [w1, w0] : Nat) (beUint16 [h1, h0] : Nat) (decide (incremental ≠ 0)))
    else none
  | [t, down, _, _, k3, k2, k1, k0] =>
    if t = 4 then some (.keyEvent (decide (down ≠ 0)) (beUint32 [k3, k2, k1, k0] : Nat))
    else none
  | [t, buttonMask, x1, x0, y1, y0] =>
    if t = 5 then
      some (.pointerEvent (buttonMask : Nat) (beUint16 [x1, x0] : Nat) (beUint16 [y1, y0] : Nat))
    else none
  | _ => none

/-- The rational is an integer in `0 .. 2^bits - 1`. -/
def isUintValue (bits : Nat) (q : Rat) : Prop :=
  q.den = 1 ∧ 0 ≤ q.num ∧ q.num < 2 ^ bits

instance (bits : Nat) (q : Rat) : Decidable (isUintValue bits q) := by
  unfold isUintValue; infer_instance

/-- Every numeric field of the event is an integer that fits the wire field it goes to. -/
def InputEvent.InRange : InputEvent → Prop
  | .framebufferRequest x y width height _ =>
    isUintValue 16 x ∧ isUintValue 16 y ∧ isUintValue 16 width ∧ isUintValue 16 height
  | .keyEvent _ keysym => isUintValue 32 keysym
  | .pointerEvent buttonMask x y => isUintValue 8 buttonMask ∧ isUintValue 16 x ∧ isUintValue 16 y

instance (ev : InputEvent) : Decidable ev.InRange := by
  cases ev <;> (unfold InputEvent.InRange; infer_instance)

/-- Specification side: one well-formed UTF-8 byte sequence (the table of well-formed
sequences of the Unicode standard: no overlong forms, no surrogates, nothing above
U+10FFFF). -/
def IsUtf8Seq (c : List Nat) : Prop :=
  match c with
  | [a] => a < 0x80
  | [a, b] => 0xC2 ≤ a ∧ a ≤ 0xDF ∧ 0x80 ≤ b ∧ b ≤ 0xBF
  | [a, b, d] =>
    ((a = 0xE0 ∧ 0xA0 ≤ b ∧ b ≤ 0xBF) ∨ (0xE1 ≤ a ∧ a ≤ 0xEC ∧ 0x80 ≤ b ∧ b ≤ 0xBF) ∨
      (a = 0xED ∧ 0x80 ≤ b ∧ b ≤ 0x9F) ∨ (0xEE ≤ a ∧ a ≤ 0xEF ∧ 0x80 ≤ b ∧ b ≤ 0xBF)) ∧
    0x80 ≤ d ∧ d ≤ 0xBF
  | [a, b, d, e] =>
    ((a = 0xF0 ∧ 0x90 ≤ b ∧ b ≤ 0xBF) ∨ (0xF1 ≤ a ∧ a ≤ 0xF3 ∧ 0x80 ≤ b ∧ b ≤ 0xBF) ∨
      (a = 0xF4 ∧ 0x80 ≤ b ∧ b ≤ 0x8F)) ∧
    0x80 ≤ d ∧ d ≤ 0xBF ∧ 0x80 ≤ e ∧ e ≤ 0xBF
  | _ => False

/-- Specification side: the bytes are valid UTF-8, a concatenation of well-formed
sequences. -/
def IsValidUtf8 (s : List Nat) : Prop :=
  ∃ chunks : List (List Nat), s = chunks.flatten ∧ ∀ c ∈ chunks, IsUtf8Seq c

/-! ## Sample inputs -/

/-- A server stream: version line, one security type (None), security result 0, a
ServerInit announcing a 1x1 framebuffer at 8 bits per pixel with an empty name, then one
FramebufferUpdate with one Raw 1x1 rectangle followed by the bytes 10, 2, 2, 2. -/
def streamEightBpp : List Nat :=
  ascii "RFB 003.008\n" ++ [1, 1] ++ [0, 0, 0, 0]
    ++ [0, 1, 0, 1] ++ [8, 8, 0, 1, 0, 7, 0, 7, 0, 3, 0, 3, 6, 0, 0, 0] ++ [0, 0, 0, 0]
    ++ [0, 0, 0, 1] ++ [0, 0, 0, 0, 0, 1, 0, 1, 0, 0, 0, 0] ++ [10, 2, 2, 2]

/-- The map unmarshalled from
`{"type":"framebuffer_request","x":258,"y":3,"width":640,"height":480,"incremental":true}`. -/
def sampleFramebufferRequest : ClientMsg := fun k =>
  if k = "type" then .str "framebuffer_request"
  else if k = "x" then .num ((258 : Nat) : Rat)
  else if k = "y" then .num ((3 : Nat) : Rat)
  else if k = "width" then .num ((640 : Nat) : Rat)
  else if k = "height" then .num ((480 : Nat) : Rat)
  else if k = "incremental" then .bool true
  else .null

/-- The map unmarshalled from `{"type":"key_event","down":true,"keysym":65293}`. -/
def sampleKeyEvent : ClientMsg := fun k =>
  if k = "type" then .str "key_event"
  else if k = "down" then .bool true
  else if k = "keysym" then .num ((65293 : Nat) : Rat)
  else .null

/-- The map unmarshalled from `{"type":"pointer_event","buttonMask":1,"x":300,"y":200}`. -/
def samplePointerEvent : ClientMsg := fun k =>
  if k = "type" then .str "pointer_event"
  else if k = "buttonMask" then .num ((1 : Nat) : Rat)
  else if k = "x" then .num ((300 : Nat) : Rat)
  else if k = "y" then .num ((200 : Nat) : Rat)
  else .null

/-- The map unmarshalled from `{"type":"key_event"}`: a recognised tag, no payload. -/
def malformedKeyEvent : ClientMsg := fun k =>
  if k = "type" then .str "key_event" else .null

/-- A server stream: the same 8-bits-per-pixel handshake as `streamEightBpp`, then one
FramebufferUpdate with one Raw 1x1 rectangle and its single pixel byte 10, then end of
stream. -/
def streamEightBppOneRect : List Nat :=
  ascii "RFB 003.008\n" ++ [1, 1] ++ [0, 0, 0, 0]
    ++ [0, 1, 0, 1] ++ [8, 8, 0, 1, 0, 7, 0, 7, 0, 3, 0, 3, 6, 0, 0, 0] ++ [0, 0, 0, 0]
    ++ [0, 0, 0, 1] ++ [0, 0, 0, 0, 0, 1, 0, 1, 0, 0, 0, 0] ++ [10]

/-- A rectangle as the reader delimits it, given as header and payload: 12 header bytes
with encoding 0 and `width * height * 4` payload bytes. -/
def IsRawRect32 (r : List Nat × List Nat) : Prop :=
  r.1.length = 12 ∧ toInt32 (beUint32 (r.1.drop 8)) = EncodingRaw ∧
    r.2.length = beUint16 (r.1.drop 4) * beUint16 (r.1.drop 6) * 4

/-- The bytes of a sequence of rectangles, each header followed by its payload. -/
def rectsBytes : List (List Nat × List Nat) → List Nat
  | [] => []
  | r :: rs => r.1 ++ (r.2 ++ rectsBytes rs)

/-- The `framebuffer_update` messages for a sequence of rectangles, in order. -/
def rectsMsgs (rects : List (List Nat × List Nat)) : List OutMsg :=
  rects.map fun r => .framebufferUpdate (beUint16 r.1) (beUint16 (r.1.drop 2))
    (beUint16 (r.1.drop 4)) (beUint16 (r.1.drop 6)) r.2

/-- A server stream: version line, one security type (None), security result 0, and a
ServerInit for a 1x1 framebuffer at 32 bits per pixel whose 2-byte name is 255, 65 (the
Latin-1 text `ÿA`, not valid UTF-8). -/
def streamLatin1Name : List Nat :=
  ascii "RFB 003.008\n" ++ [1, 1] ++ [0, 0, 0, 0]
    ++ [0, 1, 0, 1] ++ [32, 24, 0, 1, 0, 255, 0, 255, 0, 255, 16, 8, 0, 0, 0, 0]
    ++ [0, 0, 0, 2] ++ [255, 65]

/-- A server stream like `streamLatin1Name` whose 3-byte name is 195, 169, 49 (the UTF-8
text `é1`). -/
def streamUtf8Name : List Nat :=
  ascii "RFB 003.008\n" ++ [1, 1] ++ [0, 0, 0, 0]
    ++ [0, 1, 0, 1] ++ [32, 24, 0, 1, 0, 255, 0, 255, 0, 255, 16, 8, 0, 0, 0, 0]
    ++ [0, 0, 0, 3] ++ [195, 169, 49]

/-! ## Transport lemmas -/

theorem readFull_append (a rest out : List Nat) (wl n : Nat) (h : a.length = n) :
    readFull ⟨a ++ rest, out, wl⟩ n = ⟨a, none, ⟨rest, out, wl⟩⟩ := by
  subst h
  simp [readFull]

theorem readFull_of_le (inp out : List Nat) (wl n : Nat) (h : n ≤ inp.length) :
    readFull ⟨inp, out, wl⟩ n = ⟨inp.take n, none, ⟨inp.drop n, out, wl⟩⟩ := by
  unfold readFull
  rw [if_pos h]

theorem readFull_conn_output (c : VncConn) (n : Nat) : (readFull c n).conn.output = c.output := by
  unfold readFull; split <;> rfl

theorem readFull_input_length_le (c : VncConn) (n : Nat) :
    (readFull c n).conn.input.length ≤ c.input.length := by
  unfold readFull; split <;> simp

theorem readFull_ok_input_length (c : VncConn) (n : Nat) (h : (readFull c n).err = none) :
    (readFull c n).conn.input.length + n = c.input.length := by
  unfold readFull at h ⊢
  split
  · next hle => simp; omega
  · next hle => simp [hle] at h

theorem write_succ (i out p : List Nat) (k : Nat) :
    VncConn.write ⟨i, out, k + 1⟩ p = (none, ⟨i, out ++ p, k⟩) := rfl

theorem write_zero (i out p : List Nat) :
    VncConn.write ⟨i, out, 0⟩ p = (some IOCause.writeFailed, ⟨i, out, 0⟩) := rfl

theorem write_output_prefix (c : VncConn) (p : List Nat) : c.output <+: (c.write p).2.output := by
  unfold VncConn.write
  split
  · exact List.prefix_refl _
  · exact List.prefix_append _ _

theorem write_eq_output_prefix {c c2 : VncConn} {p : List Nat} {e : Option IOCause}
    (h : c.write p = (e, c2)) : c.output <+: c2.output := by
  have := write_output_prefix c p
  rw [h] at this
  exact this

theorem readFull_ok (c : VncConn) (n : Nat) (h : (readFull c n).err = none) :
    c.input = (readFull c n).buf ++ (readFull c n).conn.input ∧ (readFull c n).buf.length = n ∧
    (readFull c n).conn.output = c.output ∧ (readFull c n).conn.writesLeft = c.writesLeft := by
  unfold readFull at h ⊢
  split
  · next hle => simp [hle]
  · next hle => simp [hle] at h

theorem write_ok {c c2 : VncConn} {p : List Nat} (h : c.write p = (none, c2)) :
    c2.input = c.input ∧ c2.output = c.output ++ p ∧ c2.writesLeft + 1 = c.writesLeft := by
  unfold VncConn.write at h
  split at h
  · simp at h
  · next k hk =>
    simp only [Prod.mk.injEq, true_and] at h
    subst h
    simp [hk]

theorem writeJSON_ok {w w2 : WsConn} {m : OutMsg} (h : w.writeJSON m = (true, w2)) :
    w2.sent = w.sent ++ [m.delivered] ∧ w2.sendsLeft + 1 = w.sendsLeft := by
  unfold WsConn.writeJSON at h
  split at h
  · simp at h
  · next k hk =>
    simp only [Prod.mk.injEq, true_and] at h
    subst h
    simp [hk]

theorem utf8SeqLen_of_seq (c rest : List Nat) (h : IsUtf8Seq c) :
    utf8SeqLen (c ++ rest) = c.length ∧ 0 < c.length := by
  match c, h with
  | [a], h =>
    simp only [IsUtf8Seq] at h
    simp [utf8SeqLen, h]
  | [a, b], h =>
    simp only [IsUtf8Seq] at h
    obtain ⟨h1, h2, h3, h4⟩ := h
    have hf : utf8First a = (2, 0x80, 0xBF) := by
      unfold utf8First
      rw [if_pos ⟨h1, h2⟩]
    have ha : ¬ a < 0x80 := by omega
    have hb : ¬ (b < 0x80 ∨ 0xBF < b) := by omega
    simp [utf8SeqLen, hf, ha, hb]
  | [a, b, d], h =>
    simp only [IsUtf8Seq] at h
    obtain ⟨h1, h3, h4⟩ := h
    have ha : ¬ a < 0x80 := by omega
    have hd : ¬ (d < 0x80 ∨ 0xBF < d) := by omega
    have hf : (utf8First a).1 = 3 ∧ ¬ (b < (utf8First a).2.1 ∨ (utf8First a).2.2 < b) := by
      unfold utf8First
      rcases h1 with ⟨e, l, u⟩ | ⟨l1, u1, l, u⟩ | ⟨e, l, u⟩ | ⟨l1, u1, l, u⟩
      · subst e; simp; omega
      · split_ifs <;> first | omega | simp_all
      · subst e; simp; omega
      · split_ifs <;> first | omega | simp_all
    obtain ⟨hsz, hb⟩ := hf
    simp [utf8SeqLen, hsz, ha, hb, hd]
  | [a, b, d, e], h =>
    simp only [IsUtf8Seq] at h
    obtain ⟨h1, h3, h4, h5, h6⟩ := h
    have ha : ¬ a < 0x80 := by omega
    have hd : ¬ (d < 0x80 ∨ 0xBF < d) := by omega
    have he : ¬ (e < 0x80 ∨ 0xBF < e) := by omega
    have hf : (utf8First a).1 = 4 ∧ ¬ (b < (utf8First a).2.1 ∨ (utf8First a).2.2 < b) := by
      unfold utf8First
      rcases h1 with ⟨e1, l, u⟩ | ⟨l1, u1, l, u⟩ | ⟨e1, l, u⟩
      · subst e1; simp; omega
      · split_ifs <;> first | omega | simp_all
      · subst e1; simp; omega
    obtain ⟨hsz, hb⟩ := hf
    simp [utf8SeqLen, hsz, ha, hb, hd, he]

theorem jsonStringFuel_join (chunks : List (List Nat)) (h : ∀ c ∈ chunks, IsUtf8Seq c)
    (fuel : Nat) (hf : chunks.flatten.length ≤ fuel) :
    jsonStringFuel fuel chunks.flatten = chunks.flatten := by
  induction chunks generalizing fuel with
  | nil => cases fuel <;> rfl
  | cons c cs ih =>
    have hc := h c (List.mem_cons_self _ _)
    have hcs : ∀ q ∈ cs, IsUtf8Seq q := fun q hq => h q (List.mem_cons_of_mem _ hq)
    obtain ⟨hlen, hpos⟩ := utf8SeqLen_of_seq c cs.flatten hc
    rw [List.flatten_cons] at hf ⊢
    match c, hpos with
    | a :: t, _ =>
      cases fuel with
      | zero => simp at hf
      | succ f =>
        rw [List.cons_append, jsonStringFuel]
        rw [List.cons_append] at hlen
        rw [hlen, if_neg (by simp)]
        rw [← List.cons_append, List.take_left, List.drop_left]
        have hf2 : cs.flatten.length ≤ f := by
          rw [List.length_append, List.length_cons] at hf
          omega
        rw [ih hcs f hf2]

/-- Valid UTF-8 passes through the JSON string encoder unchanged. -/
theorem jsonString_of_valid (s : List Nat) (h : IsValidUtf8 s) : jsonString s = s := by
  obtain ⟨chunks, rfl, hc⟩ := h
  exact jsonStringFuel_join chunks hc _ (le_refl _)

/-! ## Security-type selection lemmas -/

theorem scanSecurityTypes_of_mem (t : Nat) (l : List Nat) (c : Nat) (h : t ∈ l) :
    scanSecurityTypes t l c = t := by
  induction l with
  | nil => simp at h
  | cons a l ih =>
    by_cases ha : a = t
    · simp [scanSecurityTypes, ha]
    · have : t ∈ l := by
        rcases List.mem_cons.mp h with h1 | h1
        · exact absurd h1.symm ha
        · exact h1
      simp [scanSecurityTypes, ha, ih this]

theorem scanSecurityTypes_of_not_mem (t : Nat) (l : List Nat) (c : Nat) (h : t ∉ l) :
    scanSecurityTypes t l c = c := by
  induction l with
  | nil => rfl
  | cons a l ih =>
    simp only [List.mem_cons, not_or] at h
    have ha : a ≠ t := fun e => h.1 e.symm
    simp [scanSecurityTypes, ha, ih h.2]

theorem chooseSecurityType_eq (l : List Nat) :
    chooseSecurityType l = if 1 ∈ l then 1 else if 2 ∈ l then 2 else 0 := by
  unfold chooseSecurityType SecurityTypeNone SecurityTypeVNCAuth
  by_cases h1 : 1 ∈ l
  · simp [scanSecurityTypes_of_mem 1 l 0 h1, h1]
  · rw [scanSecurityTypes_of_not_mem 1 l 0 h1]
    by_cases h2 : 2 ∈ l
    · simp [scanSecurityTypes_of_mem 2 l 0 h2, h1, h2]
    · simp [scanSecurityTypes_of_not_mem 2 l 0 h2, h1, h2]

/-! ## Handshake lemmas -/

theorem handshakeInit_output (vnc : VncConn) (ws : WsConn) :
    vnc.output <+: (handshakeInit vnc ws).vnc.output := by
  unfold handshakeInit
  dsimp only
  split
  · next e c heq => exact write_eq_output_prefix heq
  · next c heq =>
    have h0 := write_eq_output_prefix heq
    repeat' split
    all_goals first
      | (simpa only [readFull_conn_output] using h0)
      | (next h2 =>
          have h1 := write_eq_output_prefix h2
          simp only [readFull_conn_output] at h1
          exact h0.trans h1)

theorem handshakeSecurityResult_output (v : List Nat) (vnc : VncConn) (ws : WsConn) :
    vnc.output <+: (handshakeSecurityResult v vnc ws).vnc.output := by
  unfold handshakeSecurityResult
  dsimp only
  repeat' split
  all_goals first
    | (simp only [readFull_conn_output]; exact List.prefix_refl _)
    | simpa only [readFull_conn_output] using handshakeInit_output (readFull vnc 4).conn ws
    | exact handshakeInit_output _ _

/-- The handshake up to and including the security choice, on a 12-byte version line
followed by a non-empty security-type list. -/
theorem performVNCHandshake_types (v types rest out : List Nat) (wl : Nat) (ws : WsConn)
    (hv : v.length = 12) (hne : types ≠ []) :
    performVNCHandshake ⟨v ++ ([types.length] ++ (types ++ rest)), out, wl + 1⟩ ws =
      if chooseSecurityType types = 0 then
        ⟨some .noSupportedSecurityType, ⟨rest, out ++ VNCProtocolVersion38, wl⟩, ws⟩
      else
        match wl with
        | 0 => ⟨some (.chosenTypeWrite .writeFailed), ⟨rest, out ++ VNCProtocolVersion38, 0⟩, ws⟩
        | k + 1 =>
          if chooseSecurityType types = SecurityTypeVNCAuth then
            ⟨some .vncAuthUnsupported,
              ⟨rest, out ++ VNCProtocolVersion38 ++ [chooseSecurityType types], k⟩, ws⟩
          else
            handshakeSecurityResult v
              ⟨rest, out ++ VNCProtocolVersion38 ++ [chooseSecurityType types], k⟩ ws := by
  have hlen : types.length ≠ 0 := fun h => hne (List.length_eq_zero.mp h)
  unfold performVNCHandshake
  dsimp only
  rw [readFull_append v _ out (wl + 1) 12 hv]
  dsimp only
  rw [write_succ]
  dsimp only
  rw [readFull_append [types.length] _ _ wl 1 rfl]
  dsimp only
  rw [if_neg (by simpa using hlen)]
  rw [show ([types.length] : List Nat).getD 0 0 = types.length from rfl]
  rw [readFull_append types rest _ wl types.length rfl]
  dsimp only
  cases wl with
  | zero => rw [write_zero]
  | succ k => rw [write_succ]

/-- A successful run of steps 6 and 7: the input starts with a complete ServerInit, which
is what was read; the client-init byte and SetEncodings were written; one `init`
message was sent. -/
theorem handshakeInit_ok (vnc : VncConn) (ws : WsConn) (h : (handshakeInit vnc ws).err = none) :
    ∃ wb hb pf lb name rest : List Nat,
      wb.length = 2 ∧ hb.length = 2 ∧ pf.length = 16 ∧ lb.length = 4 ∧
      name.length = beUint32 lb ∧
      vnc.input = wb ++ hb ++ pf ++ lb ++ name ++ rest ∧
      (handshakeInit vnc ws).vnc.input = rest ∧
      (handshakeInit vnc ws).vnc.output = vnc.output ++ [0] ++ setEncodingsMsg ∧
      (handshakeInit vnc ws).ws.sent =
        ws.sent ++ [.init (beUint16 wb) (beUint16 hb) (decodePixelFormat pf) (jsonString name)] := by
  generalize hr : handshakeInit vnc ws = r at h
  unfold handshakeInit at hr
  dsimp only at hr
  split at hr
  · subst hr; simp at h
  next c hw =>
  obtain ⟨hci, hco, -⟩ := write_ok hw
  split at hr
  · subst hr; simp at h
  next e1 =>
  obtain ⟨i1, l1, o1, -⟩ := readFull_ok c 2 e1
  split at hr
  · subst hr; simp at h
  next e2 =>
  obtain ⟨i2, l2, o2, -⟩ := readFull_ok _ 2 e2
  split at hr
  · subst hr; simp at h
  next e3 =>
  obtain ⟨i3, l3, o3, -⟩ := readFull_ok _ 16 e3
  split at hr
  · subst hr; simp at h
  next e4 =>
  obtain ⟨i4, l4, o4, -⟩ := readFull_ok _ 4 e4
  split at hr
  · subst hr; simp at h
  next e5 =>
  obtain ⟨i5, l5, o5, -⟩ := readFull_ok _ _ e5
  split at hr
  · subst hr; simp at h
  next w hj =>
  obtain ⟨hs, -⟩ := writeJSON_ok hj
  split at hr
  · subst hr; simp at h
  next c2 hw2 =>
  obtain ⟨hc2i, hc2o, -⟩ := write_ok hw2
  subst hr
  refine ⟨_, _, _, _, _, _, l1, l2, l3, l4, l5, ?_, hc2i, ?_, hs⟩
  · rw [← hci, i1, i2, i3, i4, i5]
    simp only [List.append_assoc]
  · rw [hc2o, o5, o4, o3, o2, o1, hco]

/-- A successful run from step 5 on went through `handshakeInit`, after reading the four
bytes of a zero security result unless the version line is `"RFB 003.003\n"`. -/
theorem handshakeSecurityResult_ok (v : List Nat) (vnc : VncConn) (ws : WsConn)
    (h : (handshakeSecurityResult v vnc ws).err = none) :
    ∃ (code : List Nat) (vnc2 : VncConn),
      handshakeSecurityResult v vnc ws = handshakeInit vnc2 ws ∧
      vnc2.output = vnc.output ∧ vnc.input = code ++ vnc2.input ∧
      code.length = (if v = versionLine33 then 0 else 4) ∧ beUint32 code = 0 := by
  unfold handshakeSecurityResult at h ⊢
  by_cases hv : v = versionLine33
  · rw [if_neg (by simpa using hv)] at h ⊢
    exact ⟨[], vnc, rfl, rfl, rfl, by simp [hv], rfl⟩
  · rw [if_pos hv] at h ⊢
    dsimp only at h ⊢
    cases he : (readFull vnc 4).err with
    | some e => rw [he] at h; simp at h
    | none =>
      rw [he] at h
      dsimp only at h ⊢
      obtain ⟨i1, l1, o1, -⟩ := readFull_ok vnc 4 he
      by_cases hc : beUint32 (readFull vnc 4).buf = 0
      · rw [if_neg (by simpa using hc)] at h ⊢
        exact ⟨(readFull vnc 4).buf, (readFull vnc 4).conn, rfl, o1, i1, by simp [hv, l1], hc⟩
      · rw [if_pos hc] at h
        simp at h

theorem chooseSecurityType_cases (l : List Nat) (h0 : chooseSecurityType l ≠ 0)
    (h2 : chooseSecurityType l ≠ SecurityTypeVNCAuth) : chooseSecurityType l = 1 ∧ 1 ∈ l := by
  rw [chooseSecurityType_eq] at h0 h2 ⊢
  unfold SecurityTypeVNCAuth at h2
  by_cases m1 : 1 ∈ l
  · simp [m1]
  · by_cases m2 : 2 ∈ l
    · simp [m1, m2] at h2
    · simp [m1, m2] at h0

/-- The shape of every successful handshake: a 12-byte version line, a count byte, as
many security types with 1 among them, a zero security result unless the version line is
`"RFB 003.003\n"`, then what `handshakeInit` reads; by then the client version line and
the choice byte 1 have been written. -/
theorem performVNCHandshake_ok (vnc : VncConn) (ws : WsConn)
    (h : (performVNCHandshake vnc ws).err = none) :
    ∃ (v types code : List Nat) (vnc2 : VncConn),
      performVNCHandshake vnc ws = handshakeInit vnc2 ws ∧
      v.length = 12 ∧ types ≠ [] ∧ 1 ∈ types ∧
      code.length = (if v = versionLine33 then 0 else 4) ∧ beUint32 code = 0 ∧
      vnc.input = v ++ [types.length] ++ types ++ code ++ vnc2.input ∧
      vnc2.output = vnc.output ++ VNCProtocolVersion38 ++ [1] := by
  generalize hr : performVNCHandshake vnc ws = r at h
  unfold performVNCHandshake at hr
  dsimp only at hr
  split at hr
  · subst hr; simp at h
  next e1 =>
  obtain ⟨i1, l1, o1, -⟩ := readFull_ok vnc 12 e1
  split at hr
  · subst hr; simp at h
  next c hw =>
  obtain ⟨hci, hco, -⟩ := write_ok hw
  split at hr
  · subst hr; simp at h
  next e2 =>
  obtain ⟨i2, l2, o2, -⟩ := readFull_ok c 1 e2
  split at hr
  · subst hr; simp at h
  next hn0 =>
  split at hr
  · subst hr; simp at h
  next e3 =>
  obtain ⟨i3, l3, o3, -⟩ := readFull_ok _ _ e3
  split at hr
  · subst hr; simp at h
  next hc0 =>
  split at hr
  · subst hr; simp at h
  next c2 hw2 =>
  obtain ⟨hc2i, hc2o, -⟩ := write_ok hw2
  split at hr
  · subst hr; simp at h
  next hc2 =>
  obtain ⟨hch, hmem⟩ := chooseSecurityType_cases _ hc0 hc2
  subst hr
  obtain ⟨code, vnc2, hrun, ho, hi, hlen, hz⟩ := handshakeSecurityResult_ok _ c2 ws h
  have hcount : (readFull c 1).buf = [(readFull c 1).buf.getD 0 0] := by
    match hb : (readFull c 1).buf, l2 with
    | [b], _ => rfl
  refine ⟨(readFull vnc 12).buf, _, code, vnc2, hrun, l1, ?_, hmem, hlen, hz, ?_, ?_⟩
  · intro hnil
    rw [hnil] at hmem
    simp at hmem
  · rw [i1, ← hci, i2, i3, ← hc2i, hi, l3, ← hcount]
    simp only [List.append_assoc]
  · rw [ho, hc2o, o3, o2, hco, o1, hch]

/-- Once the version line is read and the client version line written, the handshake
only appends to what the server has received. -/
theorem performVNCHandshake_version_prefix (v rest out : List Nat) (wl : Nat) (ws : WsConn)
    (hv : v.length = 12) :
    out ++ VNCProtocolVersion38 <+:
      (performVNCHandshake ⟨v ++ rest, out, wl + 1⟩ ws).vnc.output := by
  unfold performVNCHandshake
  dsimp only
  rw [readFull_append v rest out (wl + 1) 12 hv]
  dsimp only
  rw [write_succ]
  dsimp only
  repeat' split
  all_goals first
    | (simp only [readFull_conn_output]; exact List.prefix_refl _)
    | (next hw =>
        have hp := write_eq_output_prefix hw
        simp only [readFull_conn_output] at hp
        exact hp)
    | (next hw _ =>
        have hp := write_eq_output_prefix hw
        simp only [readFull_conn_output] at hp
        first
          | exact hp
          | exact hp.trans (handshakeSecurityResult_output _ _ _))

/-! ## Reader lemmas: the loop always returns -/

theorem rectLoop_input_length_le (k : Nat) (vnc : VncConn) (ws : WsConn) :
    (rectLoop k vnc ws).2.1.input.length ≤ vnc.input.length := by
  induction k generalizing vnc ws with
  | zero => simp [rectLoop]
  | succ k ih =>
    unfold rectLoop
    dsimp only
    have h12 := readFull_input_length_le vnc 12
    repeat' split
    all_goals first
      | exact h12
      | exact (readFull_input_length_le _ _).trans h12
      | exact (ih _ _).trans ((readFull_input_length_le _ _).trans h12)
      | exact (ih _ _).trans h12

theorem readerIteration_next_lt (vnc c : VncConn) (ws w : WsConn)
    (h : readerIteration vnc ws = .next c w) : c.input.length < vnc.input.length := by
  unfold readerIteration at h
  dsimp only at h
  split at h
  · simp at h
  · next h1 =>
    have h1len := readFull_ok_input_length vnc 1 h1
    split at h
    · -- FramebufferUpdate
      split at h
      · simp at h
      · split at h
        · simp at h
        · next c2 w2 hr =>
          have hle := rectLoop_input_length_le
            (beUint16 (List.drop 1 (readFull (readFull vnc 1).conn 3).buf))
            (readFull (readFull vnc 1).conn 3).conn ws
          rw [hr] at hle
          have h3 := readFull_input_length_le (readFull vnc 1).conn 3
          simp only [ReaderStep.next.injEq] at h
          obtain ⟨rfl, -⟩ := h
          simp only at hle
          omega
    · split at h
      · -- Bell
        simp only [ReaderStep.next.injEq] at h
        obtain ⟨rfl, -⟩ := h
        omega
      · split at h
        · -- ServerCutText
          split at h
          · simp at h
          · split at h
            · simp at h
            · split at h
              · simp at h
              · simp only [ReaderStep.next.injEq] at h
                obtain ⟨rfl, -⟩ := h
                have ha := readFull_input_length_le (readFull vnc 1).conn 3
                have hb := readFull_input_length_le (readFull (readFull vnc 1).conn 3).conn 4
                have hc := readFull_input_length_le
                  (readFull (readFull (readFull vnc 1).conn 3).conn 4).conn
                  (beUint32 (readFull (readFull (readFull vnc 1).conn 3).conn 4).buf)
                omega
        · simp at h

/-- Any two iteration bounds above the number of bytes left give the same result. -/
theorem readerLoopFuel_eq_of_lt (fuel fuel2 : Nat) (vnc : VncConn) (ws : WsConn)
    (h1 : vnc.input.length < fuel) (h2 : vnc.input.length < fuel2) :
    readerLoopFuel fuel vnc ws = readerLoopFuel fuel2 vnc ws := by
  induction fuel generalizing fuel2 vnc ws with
  | zero => omega
  | succ f ih =>
    cases fuel2 with
    | zero => omega
    | succ f2 =>
      unfold readerLoopFuel
      cases hstep : readerIteration vnc ws with
      | exit c w => rfl
      | next c w =>
        have := readerIteration_next_lt vnc c ws w hstep
        exact ih f2 c w (by omega) (by omega)

theorem readerLoopFuel_eq_readerLoop (fuel : Nat) (vnc : VncConn) (ws : WsConn)
    (h : vnc.input.length < fuel) : readerLoopFuel fuel vnc ws = readerLoop vnc ws :=
  readerLoopFuel_eq_of_lt fuel _ vnc ws h (Nat.lt_succ_self _)

/-- With a bound above the number of bytes left the loop ends by returning. -/
theorem readerLoopFuel_exited (fuel : Nat) (vnc : VncConn) (ws : WsConn)
    (h : vnc.input.length < fuel) : (readerLoopFuel fuel vnc ws).exited = true := by
  induction fuel generalizing vnc ws with
  | zero => omega
  | succ f ih =>
    unfold readerLoopFuel
    cases hstep : readerIteration vnc ws with
    | exit c w => rfl
    | next c w =>
      have := readerIteration_next_lt vnc c ws w hstep
      exact ih c w (by omega)

theorem readerLoop_exited (vnc : VncConn) (ws : WsConn) : (readerLoop vnc ws).exited = true :=
  readerLoopFuel_exited _ vnc ws (Nat.lt_succ_self _)

/-- Unfolding of the reader loop by one iteration. -/
theorem readerLoop_step (vnc : VncConn) (ws : WsConn) :
    readerLoop vnc ws =
      match readerIteration vnc ws with
      | .exit c w => ⟨c, w, true⟩
      | .next c w => readerLoop c w := by
  unfold readerLoop
  rw [readerLoopFuel]
  cases hstep : readerIteration vnc ws with
  | exit c w => rfl
  | next c w =>
    have := readerIteration_next_lt vnc c ws w hstep
    exact readerLoopFuel_eq_of_lt _ _ c w (by omega) (by omega)

/-- A Raw rectangle in the rectangle loop: whatever pixel format was negotiated, the
payload read is `width * height * 4` bytes, and one `framebuffer_update` is sent. -/
theorem rectLoop_raw (hdr payload rest out : List Nat) (wl k sl : Nat) (sent : List OutMsg)
    (hlen : hdr.length = 12) (henc : toInt32 (beUint32 (hdr.drop 8)) = EncodingRaw)
    (hpay : payload.length = beUint16 (hdr.drop 4) * beUint16 (hdr.drop 6) * 4) :
    rectLoop (k + 1) ⟨hdr ++ (payload ++ rest), out, wl⟩ ⟨sent, sl + 1⟩ =
      rectLoop k ⟨rest, out, wl⟩
        ⟨sent ++ [.framebufferUpdate (beUint16 hdr) (beUint16 (hdr.drop 2)) (beUint16 (hdr.drop 4))
          (beUint16 (hdr.drop 6)) payload], sl⟩ := by
  rw [rectLoop]
  dsimp only
  rw [readFull_append hdr _ out wl 12 hlen]
  dsimp only
  rw [if_pos henc, readFull_append payload rest out wl _ hpay]
  rfl

/-- A run of Raw rectangles with 4 bytes per pixel: one `framebuffer_update` per
rectangle, in stream order, and the loop ends without returning. -/
theorem rectLoop_raw_rects (rects : List (List Nat × List Nat)) (rest out : List Nat)
    (wl sl : Nat) (sent : List OutMsg) (h : ∀ r ∈ rects, IsRawRect32 r) :
    rectLoop rects.length ⟨rectsBytes rects ++ rest, out, wl⟩ ⟨sent, sl + rects.length⟩ =
      (false, ⟨rest, out, wl⟩, ⟨sent ++ rectsMsgs rects, sl⟩) := by
  induction rects generalizing sent with
  | nil => simp [rectLoop, rectsBytes, rectsMsgs]
  | cons r rs ih =>
    obtain ⟨h12, henc, hpay⟩ := h r (List.mem_cons_self _ _)
    have hrs : ∀ q ∈ rs, IsRawRect32 q := fun q hq => h q (List.mem_cons_of_mem _ hq)
    rw [show rectsBytes (r :: rs) ++ rest = r.1 ++ (r.2 ++ (rectsBytes rs ++ rest)) by
      simp [rectsBytes]]
    rw [show sl + (r :: rs).length = (sl + rs.length) + 1 by simp; omega]
    rw [List.length_cons, rectLoop_raw r.1 r.2 _ out wl rs.length _ sent h12 henc hpay, ih _ hrs]
    simp [rectsMsgs]

/-- A FramebufferUpdate made of Raw rectangles with 4 bytes per pixel: the reader sends
one message per rectangle and goes on with the byte after the last payload. -/
theorem readerLoop_framebufferUpdate_raw (rects : List (List Nat × List Nat))
    (pad n1 n0 : Nat) (rest out : List Nat) (wl sl : Nat) (sent : List OutMsg)
    (h : ∀ r ∈ rects, IsRawRect32 r) (hn : beUint16 [n1, n0] = rects.length) :
    readerLoop ⟨[0, pad, n1, n0] ++ (rectsBytes rects ++ rest), out, wl⟩
        ⟨sent, sl + rects.length⟩ =
      readerLoop ⟨rest, out, wl⟩ ⟨sent ++ rectsMsgs rects, sl⟩ := by
  rw [readerLoop_step]
  have hit : readerIteration ⟨[0, pad, n1, n0] ++ (rectsBytes rects ++ rest), out, wl⟩
      ⟨sent, sl + rects.length⟩ = .next ⟨rest, out, wl⟩ ⟨sent ++ rectsMsgs rects, sl⟩ := by
    unfold readerIteration
    dsimp only
    rw [show [0, pad, n1, n0] ++ (rectsBytes rects ++ rest) =
      [0] ++ ([pad, n1, n0] ++ (rectsBytes rects ++ rest)) from rfl]
    rw [readFull_append [0] _ out wl 1 rfl]
    dsimp only
    rw [show ([0] : List Nat).getD 0 0 = 0 from rfl, if_pos (by rfl)]
    rw [readFull_append [pad, n1, n0] _ out wl 3 rfl]
    dsimp only
    rw [show List.drop 1 [pad, n1, n0] = [n1, n0] from rfl, hn,
      rectLoop_raw_rects rects rest out wl sl sent h]
  rw [hit]

/-- The stream ends inside a rectangle: nothing is sent for it and the goroutine returns. -/
theorem rectLoop_truncated (k : Nat) (inp out : List Nat) (wl : Nat) (ws : WsConn) :
    (inp.length < 12 → rectLoop (k + 1) ⟨inp, out, wl⟩ ws = (true, ⟨[], out, wl⟩, ws)) ∧
    (∀ hdr payload : List Nat, inp = hdr ++ payload → hdr.length = 12 →
      toInt32 (beUint32 (hdr.drop 8)) = EncodingRaw →
      payload.length < beUint16 (hdr.drop 4) * beUint16 (hdr.drop 6) * 4 →
      rectLoop (k + 1) ⟨inp, out, wl⟩ ws = (true, ⟨[], out, wl⟩, ws)) := by
  constructor
  · intro hlt
    rw [rectLoop]
    dsimp only
    have hr : (readFull ⟨inp, out, wl⟩ 12).err ≠ none ∧
        (readFull ⟨inp, out, wl⟩ 12).conn = ⟨[], out, wl⟩ := by
      unfold readFull
      rw [if_neg (by simpa using hlt)]
      simp
    cases he : (readFull ⟨inp, out, wl⟩ 12).err with
    | none => exact absurd he hr.1
    | some e => dsimp only; rw [hr.2]
  · intro hdr payload hinp h12 henc hlt
    subst hinp
    rw [rectLoop]
    dsimp only
    rw [readFull_append hdr payload out wl 12 h12]
    dsimp only
    rw [if_pos henc]
    have hr : (readFull ⟨payload, out, wl⟩
          (beUint16 (hdr.drop 4) * beUint16 (hdr.drop 6) * 4)).err ≠ none ∧
        (readFull ⟨payload, out, wl⟩
          (beUint16 (hdr.drop 4) * beUint16 (hdr.drop 6) * 4)).conn = ⟨[], out, wl⟩ := by
      unfold readFull
      rw [if_neg (by simpa using hlt)]
      simp
    cases he : (readFull ⟨payload, out, wl⟩
        (beUint16 (hdr.drop 4) * beUint16 (hdr.drop 6) * 4)).err with
    | none => exact absurd he hr.1
    | some e => dsimp only; rw [hr.2]

/-- A complete ServerCutText message with the send succeeding: 8 + L bytes are consumed
and one `server_cut_text` is sent, its text as the JSON encoding carries it. -/
theorem readerIteration_serverCutText (pad lb text rest out : List Nat) (wl sl : Nat)
    (sent : List OutMsg) (hp : pad.length = 3) (hl : lb.length = 4)
    (ht : text.length = beUint32 lb) :
    readerIteration ⟨[3] ++ pad ++ lb ++ text ++ rest, out, wl⟩ ⟨sent, sl + 1⟩ =
      .next ⟨rest, out, wl⟩ ⟨sent ++ [.serverCutText (jsonString text)], sl⟩ := by
  rw [show [3] ++ pad ++ lb ++ text ++ rest = [3] ++ (pad ++ (lb ++ (text ++ rest))) by simp]
  unfold readerIteration
  dsimp only
  rw [readFull_append [3] _ out wl 1 rfl]
  dsimp only
  rw [show ([3] : List Nat).getD 0 0 = 3 from rfl, if_neg (by decide), if_neg (by decide),
    if_pos (by rfl)]
  rw [readFull_append pad _ out wl 3 hp]
  dsimp only
  rw [readFull_append lb _ out wl 4 hl]
  dsimp only
  rw [readFull_append text rest out wl _ ht]
  rfl

/-! ## Router lemmas -/

theorem floatToUint_natCast (bits n : Nat) (h : n < 2 ^ bits) (hb : bits ≤ 32) :
    floatToUint bits (n : Rat) = n := by
  unfold floatToUint
  have h2 : ((n : Int) % (2 ^ bits : Int)) = n := by
    apply Int.emod_eq_of_lt (by positivity)
    exact_mod_cast h
  have ht : (n : Rat).num.tdiv ((n : Rat).den : Int) = (n : Int) := by simp
  have hlt : (n : Int) < 2 ^ bits := by exact_mod_cast h
  have hw : (2 : Int) ^ bits ≤ (if bits ≤ 16 then (2 : Int) ^ 31 else 2 ^ 63) := by
    split
    · exact pow_le_pow_right₀ (by norm_num) (by omega)
    · exact pow_le_pow_right₀ (by norm_num) (by omega)
  have h0 : (0 : Int) ≤ (n : Int) := Int.ofNat_nonneg n
  have hpos : (0 : Int) < (2 : Int) ^ bits := by positivity
  dsimp only
  rw [ht, if_pos ⟨by omega, by omega⟩, h2]
  simp

theorem floatToUint_half : floatToUint 16 (1 / 2) = 0 := by
  have hn : ((1 : Rat) / 2).num = 1 := by norm_num
  have hd : ((1 : Rat) / 2).den = 2 := by norm_num
  unfold floatToUint
  rw [hn, hd]
  decide

theorem putUint16_of_lt (v : Nat) (h : v < 65536) : putUint16 v = [v / 256, v % 256] := by
  unfold putUint16
  have : v / 256 % 256 = v / 256 := Nat.mod_eq_of_lt (by omega)
  rw [this]

theorem putUint32_of_lt (v : Nat) (h : v < 4294967296) :
    putUint32 v = [v / 16777216, v / 65536 % 256, v / 256 % 256, v % 256] := by
  unfold putUint32
  have : v / 16777216 % 256 = v / 16777216 := Nat.mod_eq_of_lt (by omega)
  rw [this]

theorem beUint16_putUint16 (v : Nat) (h : v < 65536) : beUint16 (putUint16 v) = v := by
  simp only [beUint16, putUint16, List.getD_cons_zero, List.getD_cons_succ]
  omega

theorem beUint32_putUint32 (v : Nat) (h : v < 4294967296) : beUint32 (putUint32 v) = v := by
  simp only [beUint32, putUint32, List.getD_cons_zero, List.getD_cons_succ]
  omega

theorem isUintValue_exists (bits : Nat) (q : Rat) (h : isUintValue bits q) :
    ∃ n : Nat, n < 2 ^ bits ∧ q = (n : Rat) := by
  obtain ⟨hd, h0, hlt⟩ := h
  refine ⟨q.num.toNat, ?_, ?_⟩
  · have : ((q.num.toNat : Nat) : Int) < ((2 ^ bits : Nat) : Int) := by
      rw [Int.toNat_of_nonneg h0]; exact_mod_cast hlt
    exact_mod_cast this
  · have h1 : ((q.num : Int) : Rat) = q := Rat.coe_int_num_of_den_eq_one hd
    have h2 : ((q.num.toNat : Nat) : Int) = q.num := Int.toNat_of_nonneg h0
    rw [← h1]
    exact_mod_cast h2.symm

theorem routerBytes_framebufferRequest (x y width height : Rat) (incremental : Bool) :
    routerBytes (.framebufferRequest x y width height incremental) =
      some ([3, if incremental then 1 else 0] ++ putUint16 (floatToUint 16 x)
        ++ putUint16 (floatToUint 16 y) ++ putUint16 (floatToUint 16 width)
        ++ putUint16 (floatToUint 16 height)) := by
  have ht : (InputEvent.framebufferRequest x y width height incremental).toClientMsg "type"
      = .str "framebuffer_request" := rfl
  have hx : (InputEvent.framebufferRequest x y width height incremental).toClientMsg "x"
      = .num x := rfl
  have hy : (InputEvent.framebufferRequest x y width height incremental).toClientMsg "y"
      = .num y := rfl
  have hw : (InputEvent.framebufferRequest x y width height incremental).toClientMsg "width"
      = .num width := rfl
  have hh : (InputEvent.framebufferRequest x y width height incremental).toClientMsg "height"
      = .num height := rfl
  have hi : (InputEvent.framebufferRequest x y width height incremental).toClientMsg "incremental"
      = .bool incremental := rfl
  unfold routerBytes handleClientMsg
  rw [ht, if_pos rfl, hx, hy, hw, hh, hi]
  rfl

theorem routerBytes_keyEvent (down : Bool) (keysym : Rat) :
    routerBytes (.keyEvent down keysym) =
      some ([4, if down then 1 else 0] ++ putUint16 0 ++ putUint32 (floatToUint 32 keysym)) := by
  have ht : (InputEvent.keyEvent down keysym).toClientMsg "type" = .str "key_event" := rfl
  have hd : (InputEvent.keyEvent down keysym).toClientMsg "down" = .bool down := rfl
  have hk : (InputEvent.keyEvent down keysym).toClientMsg "keysym" = .num keysym := rfl
  unfold routerBytes handleClientMsg
  rw [ht, if_neg (by decide), if_pos rfl, hd, hk]
  rfl

theorem routerBytes_pointerEvent (buttonMask x y : Rat) :
    routerBytes (.pointerEvent buttonMask x y) =
      some ([5, floatToUint 8 buttonMask] ++ putUint16 (floatToUint 16 x)
        ++ putUint16 (floatToUint 16 y)) := by
  have ht : (InputEvent.pointerEvent buttonMask x y).toClientMsg "type"
      = .str "pointer_event" := rfl
  have hb : (InputEvent.pointerEvent buttonMask x y).toClientMsg "buttonMask"
      = .num buttonMask := rfl
  have hx : (InputEvent.pointerEvent buttonMask x y).toClientMsg "x" = .num x := rfl
  have hy : (InputEvent.pointerEvent buttonMask x y).toClientMsg "y" = .num y := rfl
  unfold routerBytes handleClientMsg
  rw [ht, if_neg (by decide), if_neg (by decide), if_pos rfl, hb, hx, hy]
  rfl

/-- Frames the router skips: a binary frame, a text frame that does not unmarshal, and
a text frame whose `"type"` is none of the three recognised tags.  Nothing is written
and the loop goes on with the next frame. -/
theorem router_skips_unusable_frames (clientMsg : ClientMsg) (rest : List WsFrame)
    (vnc : VncConn)
    (h1 : clientMsg "type" ≠ .str "framebuffer_request")
    (h2 : clientMsg "type" ≠ .str "key_event")
    (h3 : clientMsg "type" ≠ .str "pointer_event") :
    routerLoop (.binary :: rest) vnc = routerLoop rest vnc ∧
    routerLoop (.text none :: rest) vnc = routerLoop rest vnc ∧
    routerLoop (.text (some clientMsg) :: rest) vnc = routerLoop rest vnc := by
  refine ⟨by rw [routerLoop], by rw [routerLoop], ?_⟩
  have hb : handleClientMsg clientMsg vnc = some vnc := by
    unfold handleClientMsg
    rw [if_neg h1, if_neg h2, if_neg h3]
    rfl
  rw [routerLoop, hb]

/-! ## C1: size of a Raw rectangle payload -/

/-- C1, evaluated on the code: after a handshake that negotiates 8 bits per pixel, a Raw
1x1 rectangle makes the reader consume 4 payload bytes (1 * 1 * 4), not 1 * 1 * (8 / 8) = 1:
the three bytes after the first payload byte, which are three Bell messages on the
wire, end up in `pixelData` and no `bell` message is emitted. -/
theorem raw_payload_size_ignores_bits_per_pixel :
    (performVNCHandshake ⟨streamEightBpp, [], 4⟩ ⟨[], 2⟩).err = none ∧
    (performVNCHandshake ⟨streamEightBpp, [], 4⟩ ⟨[], 2⟩).ws.sent =
      [.init 1 1 ⟨8, 8, 0, 1, 7, 7, 3, 0, 3, 6⟩ []] ∧
    (performVNCHandshake ⟨streamEightBpp, [], 4⟩ ⟨[], 2⟩).vnc.input =
      [0, 0, 0, 1] ++ [0, 0, 0, 0, 0, 1, 0, 1, 0, 0, 0, 0] ++ [10, 2, 2, 2] ∧
    (readerLoop (performVNCHandshake ⟨streamEightBpp, [], 4⟩ ⟨[], 2⟩).vnc
        (performVNCHandshake ⟨streamEightBpp, [], 4⟩ ⟨[], 2⟩).ws).ws.sent =
      [.init 1 1 ⟨8, 8, 0, 1, 7, 7, 3, 0, 3, 6⟩ [], .framebufferUpdate 0 0 1 1 [10, 2, 2, 2]] ∧
    (readerLoop (performVNCHandshake ⟨streamEightBpp, [], 4⟩ ⟨[], 2⟩).vnc
        (performVNCHandshake ⟨streamEightBpp, [], 4⟩ ⟨[], 2⟩).ws).vnc.input = [] := by
  decide

/-! ## C2: security-type selection -/

/-- C2: on a 12-byte version line followed by a non-empty security-type list, with the
writes to the server succeeding, the choice depends only on which types are offered: if 1
occurs in the list the choice byte written after the client version line is 1; otherwise,
if 2 occurs, it is 2; otherwise the handshake fails having written only the client version
line.  The choice is the same for every reordering of the list; `[2, 1]` selects 1 and
`[2]` selects 2. -/
theorem security_type_selection_by_membership (v types rest out : List Nat) (wl : Nat)
    (ws : WsConn) (hv : v.length = 12) (hne : types ≠ []) :
    (1 ∈ types → chooseSecurityType types = 1 ∧
      out ++ VNCProtocolVersion38 ++ [1] <+:
        (performVNCHandshake ⟨v ++ [types.length] ++ types ++ rest, out, wl + 2⟩ ws).vnc.output) ∧
    (1 ∉ types → 2 ∈ types → chooseSecurityType types = 2 ∧
      (performVNCHandshake ⟨v ++ [types.length] ++ types ++ rest, out, wl + 2⟩ ws).vnc.output =
        out ++ VNCProtocolVersion38 ++ [2]) ∧
    (1 ∉ types → 2 ∉ types →
      (performVNCHandshake ⟨v ++ [types.length] ++ types ++ rest, out, wl + 2⟩ ws).err =
        some .noSupportedSecurityType ∧
      (performVNCHandshake ⟨v ++ [types.length] ++ types ++ rest, out, wl + 2⟩ ws).vnc.output =
        out ++ VNCProtocolVersion38) ∧
    (∀ types2 : List Nat, types2.Perm types →
      chooseSecurityType types2 = chooseSecurityType types) ∧
    chooseSecurityType [2, 1] = 1 ∧ chooseSecurityType [2] = 2 := by
  have hs : v ++ [types.length] ++ types ++ rest = v ++ ([types.length] ++ (types ++ rest)) := by
    simp
  rw [hs, performVNCHandshake_types v types rest out (wl + 1) ws hv hne]
  refine ⟨?_, ?_, ?_, ?_, by decide, by decide⟩
  · intro h1
    have hc : chooseSecurityType types = 1 := by simp [chooseSecurityType_eq, h1]
    refine ⟨hc, ?_⟩
    simp only [hc, SecurityTypeVNCAuth]
    rw [if_neg (by decide), if_neg (by decide)]
    exact handshakeSecurityResult_output v ⟨rest, out ++ VNCProtocolVersion38 ++ [1], wl⟩ ws
  · intro h1 h2
    have hc : chooseSecurityType types = 2 := by simp [chooseSecurityType_eq, h1, h2]
    refine ⟨hc, ?_⟩
    simp [hc, SecurityTypeVNCAuth]
  · intro h1 h2
    have hc : chooseSecurityType types = 0 := by simp [chooseSecurityType_eq, h1, h2]
    simp [hc]
  · intro types2 hp
    simp only [chooseSecurityType_eq, hp.mem_iff]

/-- Witness for C2: the list `[5, 2, 1]` after the version line `"RFB 003.007\n"` selects 1. -/
theorem security_type_selection_by_membership_witness :
    chooseSecurityType [5, 2, 1] = 1 ∧
    (performVNCHandshake ⟨ascii "RFB 003.007\n" ++ [[5, 2, 1].length] ++ [5, 2, 1] ++ [0, 0, 0, 1],
      [], 0 + 2⟩ ⟨[], 1⟩).vnc.output = ascii "RFB 003.008\n" ++ [1] := by
  have h := security_type_selection_by_membership (ascii "RFB 003.007\n") [5, 2, 1] [0, 0, 0, 1] []
    0 ⟨[], 1⟩ (by decide) (by decide)
  exact ⟨(h.1 (by decide)).1, by decide⟩

/-! ## C3: a rectangle whose encoding is not Raw -/

/-- C3 fails as stated: in a FramebufferUpdate of two rectangles whose first header
carries encoding 1, the reader does not stop after that header.  It decodes the next 12
bytes as a further rectangle header (Raw, 1x1 at (1,2)), emits its `framebuffer_update`,
then decodes the following byte as a Bell message, and returns only at end of stream. -/
theorem non_raw_rectangle_does_not_end_reader :
    readerLoop
      ⟨[0, 0, 0, 2] ++ [0, 0, 0, 0, 0, 1, 0, 1, 0, 0, 0, 1]
        ++ [0, 1, 0, 2, 0, 1, 0, 1, 0, 0, 0, 0] ++ [9, 8, 7, 6] ++ [2], [], 0⟩ ⟨[], 5⟩ =
      ⟨⟨[], [], 0⟩, ⟨[.framebufferUpdate 1 2 1 1 [9, 8, 7, 6], .bell], 3⟩, true⟩ := by
  decide

/-- C3 as amended: a rectangle header whose encoding id is not 0 is not fatal.  Handling
that rectangle sends nothing to the front end and does not make the reader return: the
rectangle loop carries on with its remaining iterations, and when it was the only
rectangle of the update the reader's loop goes round again. -/
theorem non_raw_rectangle_is_not_fatal (hdr rest out : List Nat) (wl : Nat) (ws : WsConn)
    (hlen : hdr.length = 12) (henc : toInt32 (beUint32 (hdr.drop 8)) ≠ EncodingRaw) :
    ∃ c : VncConn,
      (∀ k, rectLoop (k + 1) ⟨hdr ++ rest, out, wl⟩ ws = rectLoop k c ws) ∧
      rectLoop 1 ⟨hdr ++ rest, out, wl⟩ ws = (false, c, ws) ∧
      (∀ pad, readerIteration ⟨[0, pad, 0, 1] ++ (hdr ++ rest), out, wl⟩ ws = .next c ws) := by
  have hstep : ∀ j, rectLoop (j + 1) ⟨hdr ++ rest, out, wl⟩ ws = rectLoop j ⟨rest, out, wl⟩ ws := by
    intro j
    rw [rectLoop]
    dsimp only
    rw [readFull_append hdr rest out wl 12 hlen]
    dsimp only
    rw [if_neg henc]
  have hone : rectLoop 1 ⟨hdr ++ rest, out, wl⟩ ws = (false, ⟨rest, out, wl⟩, ws) := by
    rw [hstep 0, rectLoop]
  refine ⟨⟨rest, out, wl⟩, hstep, hone, ?_⟩
  intro pad
  unfold readerIteration
  dsimp only
  rw [show [0, pad, 0, 1] ++ (hdr ++ rest) = [0] ++ ([pad, 0, 1] ++ (hdr ++ rest)) from rfl]
  rw [readFull_append [0] _ out wl 1 rfl]
  dsimp only
  rw [show ([0] : List Nat).getD 0 0 = 0 from rfl, if_pos (by rfl)]
  rw [readFull_append [pad, 0, 1] _ out wl 3 rfl]
  dsimp only
  rw [show beUint16 (List.drop 1 [pad, 0, 1]) = 1 by simp [beUint16], hone]

/-- Witness for C3 as amended: an update whose only rectangle has encoding 1 (CopyRect)
does not end the reader's iteration and sends nothing. -/
theorem non_raw_rectangle_is_not_fatal_witness :
    ∃ c : VncConn,
      readerIteration
          ⟨[0, 0, 0, 1] ++ ([0, 0, 0, 0, 0, 1, 0, 1, 0, 0, 0, 1] ++ [0, 5, 0, 6, 2]), [], 0⟩
          ⟨[], 1⟩ = .next c ⟨[], 1⟩ := by
  obtain ⟨c, -, -, h⟩ := non_raw_rectangle_is_not_fatal [0, 0, 0, 0, 0, 1, 0, 1, 0, 0, 0, 1]
    [0, 5, 0, 6, 2] [] 0 ⟨[], 1⟩ (by decide) (by decide)
  exact ⟨c, h 0⟩

/-! ## C4: messages the router cannot use -/

/-- C4, evaluated on the code: the text frame `{"type":"key_event"}` (recognised tag,
required fields missing) makes the type assertion `clientMsg["down"].(bool)` panic.  The
router goroutine does not go on to the next frame: the well-formed `pointer_event` that
follows is never read and nothing is written for it. -/
theorem malformed_payload_panics_router :
    handleClientMsg malformedKeyEvent ⟨[], [], 2⟩ = none ∧
    routerLoop [.text (some malformedKeyEvent), .text (some samplePointerEvent)] ⟨[], [], 2⟩ =
      ⟨⟨[], [], 2⟩, true, 1⟩ ∧
    (routerLoop [.text (some samplePointerEvent)] ⟨[], [], 2⟩).vnc.output = [5, 1, 1, 44, 0, 200] := by
  decide

/-! ## C5: round trip of the client wire messages -/

/-- C5 fails as stated: a `pointer_event` whose x is the JSON number 0.5, and one whose x
is 65536, are not reproduced by decoding the 6 bytes the router writes.  The fraction of
0.5 is discarded by the conversion to `uint16`, and 65536 does not fit the two-byte
field; in both cases the x read back is 0. -/
theorem client_wire_round_trip_fails_outside_range :
    (routerBytes (.pointerEvent 0 (1 / 2) 0)).bind decodeClientWire = some (.pointerEvent 0 0 0) ∧
    (routerBytes (.pointerEvent 0 (1 / 2) 0)).bind decodeClientWire ≠
      some (.pointerEvent 0 (1 / 2) 0) ∧
    (routerBytes (.pointerEvent 0 65536 0)).bind decodeClientWire = some (.pointerEvent 0 0 0) ∧
    (routerBytes (.pointerEvent 0 65536 0)).bind decodeClientWire ≠
      some (.pointerEvent 0 65536 0) := by
  have h1 : (routerBytes (.pointerEvent 0 (1 / 2) 0)).bind decodeClientWire
      = some (.pointerEvent 0 0 0) := by
    rw [routerBytes_pointerEvent, floatToUint_half]
    decide
  have h2 : (routerBytes (.pointerEvent 0 65536 0)).bind decodeClientWire
      = some (.pointerEvent 0 0 0) := by
    decide
  refine ⟨h1, ?_, h2, ?_⟩
  · rw [h1]
    intro h
    injection h with h
    injection h with _ hx _
    norm_num at hx
  · rw [h2]
    decide

/-- C5 as amended: for every input event whose numeric fields are integers within the
range of the wire field they go to (x, y, width, height in 0..65535, keysym in 0..2^32-1,
buttonMask in 0..255), the router writes a message, and reading those bytes back by the
wire layout gives the original event. -/
theorem client_wire_round_trip_in_range (ev : InputEvent) (h : ev.InRange) :
    (routerBytes ev).bind decodeClientWire = some ev := by
  cases ev with
  | framebufferRequest x y width height incremental =>
    obtain ⟨hx, hy, hw, hh⟩ := h
    obtain ⟨nx, hnx, rfl⟩ := isUintValue_exists 16 x hx
    obtain ⟨ny, hny, rfl⟩ := isUintValue_exists 16 y hy
    obtain ⟨nw, hnw, rfl⟩ := isUintValue_exists 16 width hw
    obtain ⟨nh, hnh, rfl⟩ := isUintValue_exists 16 height hh
    rw [routerBytes_framebufferRequest, floatToUint_natCast 16 nx hnx (by decide),
      floatToUint_natCast 16 ny hny (by decide), floatToUint_natCast 16 nw hnw (by decide),
      floatToUint_natCast 16 nh hnh (by decide)]
    have e1 := beUint16_putUint16 nx (by simpa using hnx)
    have e2 := beUint16_putUint16 ny (by simpa using hny)
    have e3 := beUint16_putUint16 nw (by simpa using hnw)
    have e4 := beUint16_putUint16 nh (by simpa using hnh)
    simp only [putUint16] at e1 e2 e3 e4
    cases incremental <;>
      simp [decodeClientWire, putUint16, e1, e2, e3, e4]
  | keyEvent down keysym =>
    obtain ⟨nk, hnk, rfl⟩ := isUintValue_exists 32 keysym h
    rw [routerBytes_keyEvent, floatToUint_natCast 32 nk hnk (by decide)]
    have e1 := beUint32_putUint32 nk (by simpa using hnk)
    simp only [putUint32] at e1
    cases down <;> simp [decodeClientWire, putUint16, putUint32, e1]
  | pointerEvent buttonMask x y =>
    obtain ⟨hb, hx, hy⟩ := h
    obtain ⟨nb, hnb, rfl⟩ := isUintValue_exists 8 buttonMask hb
    obtain ⟨nx, hnx, rfl⟩ := isUintValue_exists 16 x hx
    obtain ⟨ny, hny, rfl⟩ := isUintValue_exists 16 y hy
    rw [routerBytes_pointerEvent, floatToUint_natCast 8 nb hnb (by decide),
      floatToUint_natCast 16 nx hnx (by decide), floatToUint_natCast 16 ny hny (by decide)]
    have e1 := beUint16_putUint16 nx (by simpa using hnx)
    have e2 := beUint16_putUint16 ny (by simpa using hny)
    simp only [putUint16] at e1 e2
    simp [decodeClientWire, putUint16, e1, e2]

/-- Witness for C5 as amended: a `key_event` with keysym 65293. -/
theorem client_wire_round_trip_in_range_witness :
    (InputEvent.keyEvent true 65293).InRange ∧
    (routerBytes (.keyEvent true 65293)).bind decodeClientWire = some (.keyEvent true 65293) :=
  ⟨by decide, client_wire_round_trip_in_range (.keyEvent true 65293) (by decide)⟩

/-! ## C6, C7, C8: the three client wire messages -/

/-- C6: a `framebuffer_request` whose x, y, width, height are integers in 0..65535 and
whose incremental is a boolean makes the router write exactly 10 bytes: 3, the incremental
flag as 0 or 1, then x, y, width, height as two big-endian bytes each; the loop then goes
on with the next frame. -/
theorem framebuffer_request_writes_ten_bytes (clientMsg : ClientMsg) (x y width height : Nat)
    (incremental : Bool) (inp out : List Nat) (wl : Nat) (rest : List WsFrame)
    (ht : clientMsg "type" = .str "framebuffer_request")
    (hx : clientMsg "x" = .num x) (hy : clientMsg "y" = .num y)
    (hw : clientMsg "width" = .num width) (hh : clientMsg "height" = .num height)
    (hi : clientMsg "incremental" = .bool incremental)
    (hxr : x < 65536) (hyr : y < 65536) (hwr : width < 65536) (hhr : height < 65536) :
    handleClientMsg clientMsg ⟨inp, out, wl + 1⟩ =
      some ⟨inp, out ++ [3, if incremental then 1 else 0, x / 256, x % 256, y / 256, y % 256,
        width / 256, width % 256, height / 256, height % 256], wl⟩ ∧
    routerLoop (.text (some clientMsg) :: rest) ⟨inp, out, wl + 1⟩ =
      routerLoop rest ⟨inp, out ++ [3, if incremental then 1 else 0, x / 256, x % 256,
        y / 256, y % 256, width / 256, width % 256, height / 256, height % 256], wl⟩ := by
  have hbody : handleClientMsg clientMsg ⟨inp, out, wl + 1⟩ =
      some ⟨inp, out ++ [3, if incremental then 1 else 0, x / 256, x % 256, y / 256, y % 256,
        width / 256, width % 256, height / 256, height % 256], wl⟩ := by
    unfold handleClientMsg
    rw [if_pos ht, hx, hy, hw, hh, hi]
    simp only [assertFloat64, assertBool, write_succ, Option.pure_def, Option.bind_eq_bind,
      Option.some_bind]
    rw [floatToUint_natCast 16 x (by simpa using hxr) (by decide),
      floatToUint_natCast 16 y (by simpa using hyr) (by decide),
      floatToUint_natCast 16 width (by simpa using hwr) (by decide),
      floatToUint_natCast 16 height (by simpa using hhr) (by decide),
      putUint16_of_lt x hxr, putUint16_of_lt y hyr, putUint16_of_lt width hwr,
      putUint16_of_lt height hhr]
    rfl
  refine ⟨hbody, ?_⟩
  rw [routerLoop, hbody]

/-- Witness for C6: the request x=258, y=3, width=640, height=480, incremental. -/
theorem framebuffer_request_writes_ten_bytes_witness :
    handleClientMsg sampleFramebufferRequest ⟨[], [], 0 + 1⟩ =
      some ⟨[], [] ++ [3, if true then 1 else 0, 258 / 256, 258 % 256, 3 / 256, 3 % 256,
        640 / 256, 640 % 256, 480 / 256, 480 % 256], 0⟩ :=
  (framebuffer_request_writes_ten_bytes sampleFramebufferRequest 258 3 640 480 true [] [] 0 []
    (by decide) (by decide) (by decide) (by decide) (by decide) (by decide)
    (by decide) (by decide) (by decide) (by decide)).1

/-- C7: a `key_event` whose keysym is an integer in 0..2^32-1 and whose down is a boolean
makes the router write exactly 8 bytes: 4, the down flag as 0 or 1, two zero padding
bytes, then the keysym as four big-endian bytes; the loop then goes on with the next
frame. -/
theorem key_event_writes_eight_bytes (clientMsg : ClientMsg) (keysym : Nat) (down : Bool)
    (inp out : List Nat) (wl : Nat) (rest : List WsFrame)
    (ht : clientMsg "type" = .str "key_event")
    (hd : clientMsg "down" = .bool down) (hk : clientMsg "keysym" = .num keysym)
    (hkr : keysym < 4294967296) :
    handleClientMsg clientMsg ⟨inp, out, wl + 1⟩ =
      some ⟨inp, out ++ [4, if down then 1 else 0, 0, 0, keysym / 16777216,
        keysym / 65536 % 256, keysym / 256 % 256, keysym % 256], wl⟩ ∧
    routerLoop (.text (some clientMsg) :: rest) ⟨inp, out, wl + 1⟩ =
      routerLoop rest ⟨inp, out ++ [4, if down then 1 else 0, 0, 0, keysym / 16777216,
        keysym / 65536 % 256, keysym / 256 % 256, keysym % 256], wl⟩ := by
  have hne : clientMsg "type" ≠ .str "framebuffer_request" := by rw [ht]; decide
  have hbody : handleClientMsg clientMsg ⟨inp, out, wl + 1⟩ =
      some ⟨inp, out ++ [4, if down then 1 else 0, 0, 0, keysym / 16777216,
        keysym / 65536 % 256, keysym / 256 % 256, keysym % 256], wl⟩ := by
    unfold handleClientMsg
    rw [if_neg hne, if_pos ht, hd, hk]
    simp only [assertFloat64, assertBool, write_succ, Option.pure_def, Option.bind_eq_bind,
      Option.some_bind]
    rw [floatToUint_natCast 32 keysym (by simpa using hkr) (by decide), putUint32_of_lt keysym hkr]
    rfl
  refine ⟨hbody, ?_⟩
  rw [routerLoop, hbody]

/-- Witness for C7: key down with keysym 65293. -/
theorem key_event_writes_eight_bytes_witness :
    handleClientMsg sampleKeyEvent ⟨[], [], 0 + 1⟩ =
      some ⟨[], [] ++ [4, if true then 1 else 0, 0, 0, 65293 / 16777216,
        65293 / 65536 % 256, 65293 / 256 % 256, 65293 % 256], 0⟩ :=
  (key_event_writes_eight_bytes sampleKeyEvent 65293 true [] [] 0 []
    (by decide) (by decide) (by decide) (by decide)).1

/-- C8: a `pointer_event` whose buttonMask is an integer in 0..255 and whose x, y are
integers in 0..65535 makes the router write exactly 6 bytes: 5, the button mask, then x
and y as two big-endian bytes each; the loop then goes on with the next frame. -/
theorem pointer_event_writes_six_bytes (clientMsg : ClientMsg) (buttonMask x y : Nat)
    (inp out : List Nat) (wl : Nat) (rest : List WsFrame)
    (ht : clientMsg "type" = .str "pointer_event")
    (hb : clientMsg "buttonMask" = .num buttonMask)
    (hx : clientMsg "x" = .num x) (hy : clientMsg "y" = .num y)
    (hbr : buttonMask < 256) (hxr : x < 65536) (hyr : y < 65536) :
    handleClientMsg clientMsg ⟨inp, out, wl + 1⟩ =
      some ⟨inp, out ++ [5, buttonMask, x / 256, x % 256, y / 256, y % 256], wl⟩ ∧
    routerLoop (.text (some clientMsg) :: rest) ⟨inp, out, wl + 1⟩ =
      routerLoop rest ⟨inp, out ++ [5, buttonMask, x / 256, x % 256, y / 256, y % 256], wl⟩ := by
  have hne1 : clientMsg "type" ≠ .str "framebuffer_request" := by rw [ht]; decide
  have hne2 : clientMsg "type" ≠ .str "key_event" := by rw [ht]; decide
  have hbody : handleClientMsg clientMsg ⟨inp, out, wl + 1⟩ =
      some ⟨inp, out ++ [5, buttonMask, x / 256, x % 256, y / 256, y % 256], wl⟩ := by
    unfold handleClientMsg
    rw [if_neg hne1, if_neg hne2, if_pos ht, hb, hx, hy]
    simp only [assertFloat64, write_succ, Option.pure_def, Option.bind_eq_bind,
      Option.some_bind]
    rw [floatToUint_natCast 8 buttonMask (by simpa using hbr) (by decide),
      floatToUint_natCast 16 x (by simpa using hxr) (by decide),
      floatToUint_natCast 16 y (by simpa using hyr) (by decide),
      putUint16_of_lt x hxr, putUint16_of_lt y hyr]
    rfl
  refine ⟨hbody, ?_⟩
  rw [routerLoop, hbody]

/-- Witness for C8: button mask 1 at (300, 200). -/
theorem pointer_event_writes_six_bytes_witness :
    handleClientMsg samplePointerEvent ⟨[], [], 0 + 1⟩ =
      some ⟨[], [] ++ [5, 1, 300 / 256, 300 % 256, 200 / 256, 200 % 256], 0⟩ :=
  (pointer_event_writes_six_bytes samplePointerEvent 1 300 200 [] [] 0 []
    (by decide) (by decide) (by decide) (by decide) (by decide) (by decide) (by decide)).1

/-! ## C9: the server reports zero security types -/

/-- C9: on a 12-byte version line, a count byte 0, four length bytes giving L and at least
L further bytes, with the write of the client version line succeeding, the handshake fails
with the negotiation error whose message is the fixed prefix followed by exactly the L
reason bytes; exactly 12 + 1 + 4 + L bytes have been read, only the client version line
has been written, and nothing was sent to the front end. -/
theorem count_zero_fails_with_reason (v lenBytes tail out : List Nat) (wl : Nat) (ws : WsConn)
    (causeText : IOCause → List Nat) (wsText : List Nat)
    (hv : v.length = 12) (hl : lenBytes.length = 4) (ht : beUint32 lenBytes ≤ tail.length) :
    (performVNCHandshake ⟨v ++ [0] ++ lenBytes ++ tail, out, wl + 1⟩ ws).err =
      some (.negotiationFailed (tail.take (beUint32 lenBytes))) ∧
    (tail.take (beUint32 lenBytes)).length = beUint32 lenBytes ∧
    ((performVNCHandshake ⟨v ++ [0] ++ lenBytes ++ tail, out, wl + 1⟩ ws).err.map
        (HandshakeError.message causeText wsText)) =
      some (utf8 "VNC 서버 보안 협상 실패: " ++ tail.take (beUint32 lenBytes)) ∧
    (performVNCHandshake ⟨v ++ [0] ++ lenBytes ++ tail, out, wl + 1⟩ ws).vnc.input =
      (v ++ [0] ++ lenBytes ++ tail).drop (12 + 1 + 4 + beUint32 lenBytes) ∧
    (performVNCHandshake ⟨v ++ [0] ++ lenBytes ++ tail, out, wl + 1⟩ ws).vnc.output =
      out ++ VNCProtocolVersion38 ∧
    (performVNCHandshake ⟨v ++ [0] ++ lenBytes ++ tail, out, wl + 1⟩ ws).ws = ws := by
  have hrun : performVNCHandshake ⟨v ++ [0] ++ lenBytes ++ tail, out, wl + 1⟩ ws =
      ⟨some (.negotiationFailed (tail.take (beUint32 lenBytes))),
        ⟨tail.drop (beUint32 lenBytes), out ++ VNCProtocolVersion38, wl⟩, ws⟩ := by
    rw [show v ++ [0] ++ lenBytes ++ tail = v ++ ([0] ++ (lenBytes ++ tail)) by simp]
    unfold performVNCHandshake
    dsimp only
    rw [readFull_append v _ out (wl + 1) 12 hv]
    dsimp only
    rw [write_succ]
    dsimp only
    rw [readFull_append [0] _ _ wl 1 rfl]
    dsimp only
    rw [if_pos (by rfl), readFull_append lenBytes tail _ wl 4 hl]
    dsimp only
    rw [readFull_of_le tail _ wl _ ht]
  have hdrop : (v ++ [0] ++ lenBytes ++ tail).drop (12 + 1 + 4 + beUint32 lenBytes) =
      tail.drop (beUint32 lenBytes) := by
    have hlen : (v ++ [0] ++ lenBytes).length = 12 + 1 + 4 := by simp [hv, hl]
    rw [← hlen, ← List.drop_drop, List.drop_left]
  rw [hrun, hdrop]
  refine ⟨rfl, ?_, rfl, rfl, rfl, rfl⟩
  rw [List.length_take]
  exact Nat.min_eq_left ht

/-- Witness for C9: count 0 with the three reason bytes of `bad` and one byte after them. -/
theorem count_zero_fails_with_reason_witness :
    (performVNCHandshake ⟨ascii "RFB 003.008\n" ++ [0] ++ [0, 0, 0, 3] ++ [98, 97, 100, 7], [], 0 + 1⟩
      ⟨[], 1⟩).err = some (.negotiationFailed [98, 97, 100]) ∧
    (performVNCHandshake ⟨ascii "RFB 003.008\n" ++ [0] ++ [0, 0, 0, 3] ++ [98, 97, 100, 7], [], 0 + 1⟩
      ⟨[], 1⟩).vnc.input = [7] := by
  have h := count_zero_fails_with_reason (ascii "RFB 003.008\n") [0, 0, 0, 3] [98, 97, 100, 7] [] 0
    ⟨[], 1⟩ (fun _ => []) [] (by decide) (by decide) (by decide)
  exact ⟨h.1, h.2.2.2.1⟩

/-! ## C10: a non-zero security result -/

/-- C10: on a 12-byte version line other than `"RFB 003.003\n"`, a security-type list
offering None, a non-zero 4-byte security result, four length bytes giving L and at least L
further bytes, with the writes to the server succeeding, the handshake fails with the
security-result error carrying the code and the L reason bytes, and its message contains
the reason; the server has received only the client version line and the choice byte 1
(no client-init byte), no `init` message was sent, and `handleVNCProxy` returns after
sending the `error` message without starting the two relay goroutines. -/
theorem security_result_failure_aborts (v types codeBytes lenBytes tail out : List Nat)
    (wl : Nat) (ws : WsConn) (causeText : IOCause → List Nat) (wsText : List Nat)
    (hv : v.length = 12) (hv33 : v ≠ versionLine33) (h1 : 1 ∈ types)
    (hc : codeBytes.length = 4) (hcode : beUint32 codeBytes ≠ 0)
    (hl : lenBytes.length = 4) (ht : beUint32 lenBytes ≤ tail.length) :
    performVNCHandshake
        ⟨v ++ [types.length] ++ types ++ codeBytes ++ lenBytes ++ tail, out, wl + 2⟩ ws =
      ⟨some (.securityResultFailed (beUint32 codeBytes) (tail.take (beUint32 lenBytes))),
        ⟨tail.drop (beUint32 lenBytes), out ++ VNCProtocolVersion38 ++ [1], wl⟩, ws⟩ ∧
    tail.take (beUint32 lenBytes) <:+:
      HandshakeError.message causeText wsText
        (.securityResultFailed (beUint32 codeBytes) (tail.take (beUint32 lenBytes))) ∧
    handleVNCProxy
        ⟨v ++ [types.length] ++ types ++ codeBytes ++ lenBytes ++ tail, out, wl + 2⟩ ws =
      .handshakeFailed ⟨tail.drop (beUint32 lenBytes), out ++ VNCProtocolVersion38 ++ [1], wl⟩
        (ws.writeJSON (.error (.securityResultFailed (beUint32 codeBytes)
          (tail.take (beUint32 lenBytes))))).2 := by
  have hne : types ≠ [] := fun h => by simp [h] at h1
  have hch : chooseSecurityType types = 1 := by simp [chooseSecurityType_eq, h1]
  have hrun : performVNCHandshake
        ⟨v ++ [types.length] ++ types ++ codeBytes ++ lenBytes ++ tail, out, wl + 2⟩ ws =
      ⟨some (.securityResultFailed (beUint32 codeBytes) (tail.take (beUint32 lenBytes))),
        ⟨tail.drop (beUint32 lenBytes), out ++ VNCProtocolVersion38 ++ [1], wl⟩, ws⟩ := by
    rw [show v ++ [types.length] ++ types ++ codeBytes ++ lenBytes ++ tail =
      v ++ ([types.length] ++ (types ++ (codeBytes ++ (lenBytes ++ tail)))) by simp]
    rw [performVNCHandshake_types v types _ out (wl + 1) ws hv hne, hch]
    rw [if_neg (by decide)]
    dsimp only
    rw [if_neg (by decide)]
    unfold handshakeSecurityResult
    rw [if_pos hv33]
    dsimp only
    rw [readFull_append codeBytes _ _ wl 4 hc]
    dsimp only
    rw [if_pos hcode, readFull_append lenBytes tail _ wl 4 hl]
    dsimp only
    rw [readFull_of_le tail _ wl _ ht]
  refine ⟨hrun, ?_, ?_⟩
  · unfold HandshakeError.message
    exact (List.suffix_append _ _).isInfix
  · unfold handleVNCProxy
    rw [hrun]

/-- Witness for C10: security result 1 with the reason `too many attempts`. -/
theorem security_result_failure_aborts_witness :
    handleVNCProxy
        ⟨ascii "RFB 003.008\n" ++ [[1].length] ++ [1] ++ [0, 0, 0, 1] ++ [0, 0, 0, 17]
          ++ ascii "too many attempts", [], 0 + 2⟩ ⟨[], 1⟩ =
      .handshakeFailed ⟨[], [] ++ VNCProtocolVersion38 ++ [1], 0⟩
        ⟨[.error (.securityResultFailed 1 (ascii "too many attempts"))], 0⟩ := by
  have h := (security_result_failure_aborts (ascii "RFB 003.008\n") [1] [0, 0, 0, 1] [0, 0, 0, 17]
    (ascii "too many attempts") [] 0 ⟨[], 1⟩ (fun _ => []) [] (by decide) (by decide) (by decide)
    (by decide) (by decide) (by decide) (by decide)).2.2
  rw [h]
  decide

/-! ## C11: when the security result is read -/

/-- C12: whatever the 12 bytes of the server version line are, the first 12 bytes the
handshake writes to the server are the bytes of `"RFB 003.008\n"`.  They are written
before any security-type byte is read: they are written even when the stream ends right
after the version line, and when that write fails the handshake returns without having
read the next byte. -/
theorem client_version_written_first (v rest : List Nat) (wl : Nat) (ws : WsConn)
    (hv : v.length = 12) :
    (performVNCHandshake ⟨v ++ rest, [], wl + 1⟩ ws).vnc.output.take 12 = ascii "RFB 003.008\n" ∧
    (performVNCHandshake ⟨v, [], wl + 1⟩ ws).vnc.output = ascii "RFB 003.008\n" ∧
    performVNCHandshake ⟨v ++ rest, [], 0⟩ ws =
      ⟨some (.clientVersionWrite .writeFailed), ⟨rest, [], 0⟩, ws⟩ := by
  refine ⟨?_, ?_, ?_⟩
  · obtain ⟨t, ht⟩ := performVNCHandshake_version_prefix v rest [] wl ws hv
    rw [← ht]
    have h12 : ([] ++ VNCProtocolVersion38 : List Nat).length = 12 := by decide
    rw [List.take_left' h12]
    rfl
  · have hrun : performVNCHandshake ⟨v ++ [], [], wl + 1⟩ ws =
        ⟨some (.numSecurityTypesRead .eof), ⟨[], [] ++ VNCProtocolVersion38, wl⟩, ws⟩ := by
      unfold performVNCHandshake
      dsimp only
      rw [readFull_append v [] [] (wl + 1) 12 hv]
      dsimp only
      rw [write_succ]
      rfl
    rw [List.append_nil] at hrun
    rw [hrun]
    rfl
  · unfold performVNCHandshake
    dsimp only
    rw [readFull_append v rest [] 0 12 hv]
    dsimp only
    rw [write_zero]

/-- Witness for C12: the server announces `"RFB 003.003\n"` and then sends nothing. -/
theorem client_version_written_first_witness :
    (performVNCHandshake ⟨ascii "RFB 003.003\n", [], 0 + 1⟩ ⟨[], 0⟩).vnc.output =
      ascii "RFB 003.008\n" :=
  (client_version_written_first (ascii "RFB 003.003\n") [] 0 ⟨[], 0⟩ (by decide)).2.1

/-! ## C13: a FramebufferUpdate of Raw rectangles -/

/-- C13, evaluated on the code: after a handshake that negotiates 8 bits per pixel, the
stream holds one FramebufferUpdate with one complete Raw 1x1 rectangle (header and its
single pixel byte) and then ends.  The reader asks for 1 * 1 * 4 payload bytes, the read
falls short, and it returns without sending any `framebuffer_update`: the front end has
received the `init` message only. -/
theorem eight_bpp_rectangle_is_not_forwarded :
    (performVNCHandshake ⟨streamEightBppOneRect, [], 4⟩ ⟨[], 2⟩).err = none ∧
    (performVNCHandshake ⟨streamEightBppOneRect, [], 4⟩ ⟨[], 2⟩).ws.sent =
      [.init 1 1 ⟨8, 8, 0, 1, 7, 7, 3, 0, 3, 6⟩ []] ∧
    (performVNCHandshake ⟨streamEightBppOneRect, [], 4⟩ ⟨[], 2⟩).vnc.input =
      [0, 0, 0, 1] ++ [0, 0, 0, 0, 0, 1, 0, 1, 0, 0, 0, 0] ++ [10] ∧
    (readerLoop (performVNCHandshake ⟨streamEightBppOneRect, [], 4⟩ ⟨[], 2⟩).vnc
        (performVNCHandshake ⟨streamEightBppOneRect, [], 4⟩ ⟨[], 2⟩).ws).ws.sent =
      [.init 1 1 ⟨8, 8, 0, 1, 7, 7, 3, 0, 3, 6⟩ []] ∧
    (readerLoop (performVNCHandshake ⟨streamEightBppOneRect, [], 4⟩ ⟨[], 2⟩).vnc
        (performVNCHandshake ⟨streamEightBppOneRect, [], 4⟩ ⟨[], 2⟩).ws).exited = true := by
  decide

/-! ## C14: a stream that ends during the handshake -/

/-- C14, evaluated on the code: three streams that end inside the failure reason.  With
count 0, a reason length of 5 and only the two bytes `ab` left, the handshake reports the
negotiation error built from the partly read reason (`ab` and three zero bytes).  With
count 0 and only two of the four length bytes, it reports the negotiation error with an
empty, unread reason.  With security result 1, a reason length of 5 and one byte left, it
reports the security-result error built from the partly read reason.  None of the three
is a short-read error. -/
theorem truncated_reason_reported_as_negotiation_error :
    (performVNCHandshake ⟨ascii "RFB 003.008\n" ++ [0] ++ [0, 0, 0, 5] ++ [97, 98], [], 1⟩
      ⟨[], 1⟩).err = some (.negotiationFailed [97, 98, 0, 0, 0]) ∧
    (performVNCHandshake ⟨ascii "RFB 003.008\n" ++ [0] ++ [0, 0], [], 1⟩
      ⟨[], 1⟩).err = some (.negotiationFailed []) ∧
    (performVNCHandshake ⟨ascii "RFB 003.008\n" ++ [1, 1] ++ [0, 0, 0, 1] ++ [0, 0, 0, 5] ++ [97],
      [], 2⟩ ⟨[], 1⟩).err = some (.securityResultFailed 1 [97, 0, 0, 0, 0]) := by
  decide

/-! ## C15: ServerInit and the `init` message -/

/-- C15 fails as stated: the handshake on a ServerInit whose name is the two bytes
255, 65 succeeds, but the `init` message the front end receives does not carry that
name: the byte 255 is not valid UTF-8 and arrives as U+FFFD (bytes 239, 191, 189). -/
theorem init_name_not_valid_utf8_is_altered :
    (performVNCHandshake ⟨streamLatin1Name, [], 4⟩ ⟨[], 1⟩).err = none ∧
    (performVNCHandshake ⟨streamLatin1Name, [], 4⟩ ⟨[], 1⟩).ws.sent =
      [.init 1 1 ⟨32, 24, 0, 1, 255, 255, 255, 16, 8, 0⟩ [239, 191, 189, 65]] ∧
    (performVNCHandshake ⟨streamLatin1Name, [], 4⟩ ⟨[], 1⟩).ws.sent ≠
      [.init 1 1 ⟨32, 24, 0, 1, 255, 255, 255, 16, 8, 0⟩ [255, 65]] := by
  decide

/-- C15 as amended: on every successful handshake the last thing read is a ServerInit of
exactly 24 + L bytes: 2 bytes width, 2 bytes height, 16 bytes PixelFormat, 4 bytes name
length L and L name bytes; the handshake sends exactly one message to the front end, the
`init` message carrying the width and height decoded big-endian, the decoded pixel format
and, when the name bytes are valid UTF-8, the name.  The pixel format is decoded as four
single bytes (bits per pixel, depth, big-endian flag, true-colour flag), three big-endian
16-bit maxima (red, green, blue), three single-byte shifts (red, green, blue), the last
three bytes being skipped. -/
theorem server_init_parsed_and_announced (vnc : VncConn) (ws : WsConn)
    (h : (performVNCHandshake vnc ws).err = none) :
    (∃ before wb hb pf lb name rest delivered : List Nat,
      wb.length = 2 ∧ hb.length = 2 ∧ pf.length = 16 ∧ lb.length = 4 ∧
      name.length = beUint32 lb ∧
      (wb ++ hb ++ pf ++ lb ++ name).length = 24 + beUint32 lb ∧
      vnc.input = before ++ (wb ++ hb ++ pf ++ lb ++ name) ++ rest ∧
      (performVNCHandshake vnc ws).vnc.input = rest ∧
      (performVNCHandshake vnc ws).ws.sent =
        ws.sent ++ [.init (beUint16 wb) (beUint16 hb) (decodePixelFormat pf) delivered] ∧
      (IsValidUtf8 name → delivered = name)) ∧
    (∀ b0 b1 b2 b3 b4 b5 b6 b7 b8 b9 b10 b11 b12 b13 b14 b15 : Nat,
      decodePixelFormat [b0, b1, b2, b3, b4, b5, b6, b7, b8, b9, b10, b11, b12, b13, b14, b15] =
        { BPP := b0, Depth := b1, BigEndian := b2, TrueColor := b3,
          RedMax := b4 * 256 + b5, GreenMax := b6 * 256 + b7, BlueMax := b8 * 256 + b9,
          RedShift := b10, GreenShift := b11, BlueShift := b12 }) := by
  refine ⟨?_, fun _ _ _ _ _ _ _ _ _ _ _ _ _ _ _ _ => rfl⟩
  obtain ⟨v, types, code, vnc2, hrun, -, -, -, -, -, hin, -⟩ := performVNCHandshake_ok vnc ws h
  rw [hrun] at h ⊢
  obtain ⟨wb, hb, pf, lb, name, rest, l1, l2, l3, l4, l5, hi2, hrest, -, hsent⟩ :=
    handshakeInit_ok vnc2 ws h
  refine ⟨v ++ [types.length] ++ types ++ code, wb, hb, pf, lb, name, rest, jsonString name,
    l1, l2, l3, l4, l5, ?_, ?_, hrest, hsent, jsonString_of_valid name⟩
  · simp only [List.length_append, l1, l2, l3, l4, l5]
  · rw [hin, hi2]
    simp only [List.append_assoc]

/-- Witness for C15 as amended: the handshake on `streamUtf8Name` succeeds and the front
end receives the `init` message with the name `é1`. -/
theorem server_init_parsed_and_announced_witness :
    (performVNCHandshake ⟨streamUtf8Name, [], 4⟩ ⟨[], 1⟩).err = none ∧
    IsValidUtf8 [195, 169, 49] ∧
    (performVNCHandshake ⟨streamUtf8Name, [], 4⟩ ⟨[], 1⟩).ws.sent =
      [.init 1 1 ⟨32, 24, 0, 1, 255, 255, 255, 16, 8, 0⟩ [195, 169, 49]] ∧
    ∃ wb hb pf lb name delivered : List Nat,
      (wb ++ hb ++ pf ++ lb ++ name).length = 24 + beUint32 lb ∧
      (performVNCHandshake ⟨streamUtf8Name, [], 4⟩ ⟨[], 1⟩).ws.sent =
        [] ++ [.init (beUint16 wb) (beUint16 hb) (decodePixelFormat pf) delivered] ∧
      (IsValidUtf8 name → delivered = name) := by
  obtain ⟨_, wb, hb, pf, lb, name, _, delivered, _, _, _, _, _, hlen, _, _, hsent, hval⟩ :=
    (server_init_parsed_and_announced ⟨streamUtf8Name, [], 4⟩ ⟨[], 1⟩ (by decide)).1
  refine ⟨by decide, ⟨[[195, 169], [49]], rfl, ?_⟩, by decide,
    wb, hb, pf, lb, name, delivered, hlen, hsent, hval⟩
  intro c hc
  simp only [List.mem_cons, List.mem_singleton, List.not_mem_nil, or_false] at hc
  rcases hc with rfl | rfl <;> simp [IsUtf8Seq]

/-! ## C16: only VNC Authentication is offered -/

/-- C16: when the offered list contains 2 but not 1, with the writes succeeding, the
handshake writes the choice byte 2 after the client version line and fails with the
"unsupported" error; nothing after the list is read, no client-init byte is written and
nothing is sent to the front end.  Consequently every successful handshake was offered
type 1: its input is a 12-byte version line, a count byte and a list containing 1. -/
theorem vnc_auth_only_fails_unsupported (v types rest out : List Nat) (wl : Nat) (ws : WsConn)
    (hv : v.length = 12) (h1 : 1 ∉ types) (h2 : 2 ∈ types) :
    performVNCHandshake ⟨v ++ [types.length] ++ types ++ rest, out, wl + 2⟩ ws =
      ⟨some .vncAuthUnsupported, ⟨rest, out ++ VNCProtocolVersion38 ++ [2], wl⟩, ws⟩ ∧
    (∀ (vnc0 : VncConn) (ws0 : WsConn), (performVNCHandshake vnc0 ws0).err = none →
      ∃ v0 types0 tail : List Nat, v0.length = 12 ∧ 1 ∈ types0 ∧
        vnc0.input = v0 ++ [types0.length] ++ types0 ++ tail) := by
  constructor
  · have hne : types ≠ [] := fun h => by simp [h] at h2
    have hch : chooseSecurityType types = 2 := by simp [chooseSecurityType_eq, h1, h2]
    rw [show v ++ [types.length] ++ types ++ rest = v ++ ([types.length] ++ (types ++ rest)) by
      simp]
    rw [performVNCHandshake_types v types rest out (wl + 1) ws hv hne, hch]
    rw [if_neg (by decide)]
    dsimp only
    rw [if_pos (by rfl)]
  · intro vnc0 ws0 hok
    obtain ⟨v0, types0, code, vnc2, -, hv0, -, hmem, -, -, hin, -⟩ :=
      performVNCHandshake_ok vnc0 ws0 hok
    exact ⟨v0, types0, code ++ vnc2.input, hv0, hmem, by rw [hin]; simp only [List.append_assoc]⟩

/-- Witness for C16: the list `[2]` after `"RFB 003.008\n"`. -/
theorem vnc_auth_only_fails_unsupported_witness :
    performVNCHandshake ⟨ascii "RFB 003.008\n" ++ [[2].length] ++ [2] ++ [7], [], 0 + 2⟩ ⟨[], 1⟩ =
      ⟨some .vncAuthUnsupported, ⟨[7], [] ++ VNCProtocolVersion38 ++ [2], 0⟩, ⟨[], 1⟩⟩ :=
  (vnc_auth_only_fails_unsupported (ascii "RFB 003.008\n") [2] [7] [] 0 ⟨[], 1⟩
    (by decide) (by decide) (by decide)).1

/-! ## C17: ServerCutText -/

/-- C17 fails as stated: for the clipboard text 255, 65 (the Latin-1 text `ÿA`) the reader
consumes the message and sends one `server_cut_text`, but the text the front end receives
is not those two bytes: the byte 255 is not valid UTF-8 and arrives as U+FFFD (bytes
239, 191, 189). -/
theorem cut_text_not_valid_utf8_is_altered :
    readerIteration ⟨[3] ++ [0, 0, 0] ++ [0, 0, 0, 2] ++ [255, 65] ++ [2], [], 0⟩ ⟨[], 1⟩ =
      .next ⟨[2], [], 0⟩ ⟨[.serverCutText [239, 191, 189, 65]], 0⟩ ∧
    readerIteration ⟨[3] ++ [0, 0, 0] ++ [0, 0, 0, 2] ++ [255, 65] ++ [2], [], 0⟩ ⟨[], 1⟩ ≠
      .next ⟨[2], [], 0⟩ ⟨[.serverCutText [255, 65]], 0⟩ := by
  decide

/-- C17 as amended: a ServerCutText message (type byte 3, three padding bytes, four
length bytes giving L, then L text bytes), with the send succeeding, makes the reader
consume exactly 8 + L bytes and send exactly one `server_cut_text` message; when the L
text bytes are valid UTF-8 its text is those L bytes; the loop then goes on with the byte
after the text as the next message type. -/
theorem server_cut_text_forwarded (pad lb text rest out : List Nat) (wl sl : Nat)
    (sent : List OutMsg) (hp : pad.length = 3) (hl : lb.length = 4)
    (ht : text.length = beUint32 lb) :
    ∃ delivered : List Nat,
      readerIteration ⟨[3] ++ pad ++ lb ++ text ++ rest, out, wl⟩ ⟨sent, sl + 1⟩ =
        .next ⟨rest, out, wl⟩ ⟨sent ++ [.serverCutText delivered], sl⟩ ∧
      (IsValidUtf8 text → delivered = text) ∧
      ([3] ++ pad ++ lb ++ text).length = 8 + beUint32 lb ∧
      readerLoop ⟨[3] ++ pad ++ lb ++ text ++ rest, out, wl⟩ ⟨sent, sl + 1⟩ =
        readerLoop ⟨rest, out, wl⟩ ⟨sent ++ [.serverCutText delivered], sl⟩ := by
  have hit := readerIteration_serverCutText pad lb text rest out wl sl sent hp hl ht
  refine ⟨jsonString text, hit, jsonString_of_valid text, ?_, ?_⟩
  · simp only [List.length_append, List.length_singleton, hp, hl, ht]
  · rw [readerLoop_step, hit]

/-- Witness for C17 as amended: the clipboard text `hé` (104, 195, 169) followed by a Bell
byte. -/
theorem server_cut_text_forwarded_witness :
    IsValidUtf8 [104, 195, 169] ∧
    readerIteration ⟨[3] ++ [0, 0, 0] ++ [0, 0, 0, 3] ++ [104, 195, 169] ++ [2], [], 0⟩
        ⟨[], 0 + 1⟩ =
      .next ⟨[2], [], 0⟩ ⟨[] ++ [.serverCutText [104, 195, 169]], 0⟩ := by
  have hv : IsValidUtf8 [104, 195, 169] := by
    refine ⟨[[104], [195, 169]], rfl, ?_⟩
    intro c hc
    simp only [List.mem_cons, List.mem_singleton, List.not_mem_nil, or_false] at hc
    rcases hc with rfl | rfl <;> simp [IsUtf8Seq]
  obtain ⟨delivered, hit, hval, -, -⟩ := server_cut_text_forwarded [0, 0, 0] [0, 0, 0, 3]
    [104, 195, 169] [2] [] 0 0 [] (by decide) (by decide) (by decide)
  rw [hval hv] at hit
  exact ⟨hv, hit⟩

/-! ## C19: everything a successful handshake writes -/

/-- C19: on every successful handshake the bytes written to the server are, in order, the
12 bytes of `"RFB 003.008\n"`, the choice byte 1, the client-init byte 0 and the 8
SetEncodings bytes 2, 0, 0, 1, 0, 0, 0, 0: the same 22 bytes whatever the server sent. -/
theorem successful_handshake_writes_22_bytes (vnc : VncConn) (ws : WsConn)
    (h : (performVNCHandshake vnc ws).err = none) :
    (performVNCHandshake vnc ws).vnc.output =
      vnc.output ++ (ascii "RFB 003.008\n" ++ [1] ++ [0] ++ [2, 0, 0, 1, 0, 0, 0, 0]) ∧
    (ascii "RFB 003.008\n" ++ [1] ++ [0] ++ [2, 0, 0, 1, 0, 0, 0, 0]).length = 22 := by
  refine ⟨?_, by decide⟩
  obtain ⟨v, types, code, vnc2, hrun, -, -, -, -, -, -, hout⟩ := performVNCHandshake_ok vnc ws h
  rw [hrun] at h ⊢
  obtain ⟨_, _, _, _, _, _, -, -, -, -, -, -, -, ho, -⟩ := handshakeInit_ok vnc2 ws h
  rw [ho, hout]
  have hs : setEncodingsMsg = [2, 0, 0, 1, 0, 0, 0, 0] := by decide
  rw [hs]
  simp only [VNCProtocolVersion38, List.append_assoc]

/-- Witness for C19: the handshake on `streamEightBpp`. -/
theorem successful_handshake_writes_22_bytes_witness :
    (performVNCHandshake ⟨streamEightBpp, [], 4⟩ ⟨[], 2⟩).err = none ∧
    (performVNCHandshake ⟨streamEightBpp, [], 4⟩ ⟨[], 2⟩).vnc.output =
      [] ++ (ascii "RFB 003.008\n" ++ [1] ++ [0] ++ [2, 0, 0, 1, 0, 0, 0, 0]) :=
  ⟨by decide, (successful_handshake_writes_22_bytes ⟨streamEightBpp, [], 4⟩ ⟨[], 2⟩
    (by decide)).1⟩

/-! ## C20: an unknown server message type -/

/-- C20: a message type byte other than 0, 2 and 3 makes the reader return at once:
nothing is sent, no further byte is read, and the bytes after it are never decoded. -/
theorem unknown_message_type_ends_reader (t : Nat) (rest out : List Nat) (wl : Nat)
    (ws : WsConn) (h0 : t ≠ 0) (h2 : t ≠ 2) (h3 : t ≠ 3) :
    readerIteration ⟨t :: rest, out, wl⟩ ws = .exit ⟨rest, out, wl⟩ ws ∧
    readerLoop ⟨t :: rest, out, wl⟩ ws = ⟨⟨rest, out, wl⟩, ws, true⟩ := by
  have hit : readerIteration ⟨t :: rest, out, wl⟩ ws = .exit ⟨rest, out, wl⟩ ws := by
    unfold readerIteration
    dsimp only
    rw [show t :: rest = [t] ++ rest from rfl, readFull_append [t] rest out wl 1 rfl]
    dsimp only
    rw [show ([t] : List Nat).getD 0 0 = t from rfl, if_neg (show ¬t = MessageTypeFramebufferUpdate from h0),
      if_neg (show ¬t = MessageTypeBell from h2),
      if_neg (show ¬t = MessageTypeServerCutText from h3)]
  refine ⟨hit, ?_⟩
  rw [readerLoop_step, hit]

/-- Witness for C20: type byte 1 (SetColourMapEntries) followed by a Bell byte. -/
theorem unknown_message_type_ends_reader_witness :
    readerLoop ⟨1 :: [2], [], 0⟩ ⟨[], 1⟩ = ⟨⟨[2], [], 0⟩, ⟨[], 1⟩, true⟩ :=
  (unknown_message_type_ends_reader 1 [2] [] 0 ⟨[], 1⟩ (by decide) (by decide) (by decide)).2

end WebVNC
